import Mathlib

/-!
# madaoQT `task/okexdiff.go`: the future/spot difference analyzer

A shallow embedding of `IAnalyzer` (src/task/okexdiff.go) and of its methods
`Start`, `Watch`, `Close`, `placeOrdersByQuantity` and `checkPosition`.

Modelling conventions.

* `float64` values (prices, amounts, thresholds) are exact rationals `ℚ`;
  rounding, NaN and infinities are outside the model.
* A Go `map` is an association list whose order is the order in which `range`
  happens to visit the keys; a well-formed map has no duplicate key.
* A pointer or interface value that may be `nil` is an `Option`; using a `nil`
  one (a method call on a nil interface, a field read through a nil pointer) is
  a runtime panic, which the model reports as `Outcome.crashed`.
* Collaborators that live outside `okexdiff.go` (the exchanges, the databases,
  `ProcessTradeRoutine`, `InPriceArea`, `RevertTradeType`, `json.Unmarshal`,
  the random batch id) are fields of `Env`: every theorem that quantifies over
  `Env` holds for every behaviour of them.
* Every order handed to `ProcessTradeRoutine` is appended to a log together with
  the call site that issued it and the result it delivered; the two legs of a
  pair are logged in the order in which the source starts them.
-/

namespace task

/-! ## Data model -/

/-- Lifecycle status, `StatusType` of the source (lines 28-35). -/
inductive StatusType
  | StatusNone
  | StatusProcessing
  | StatusOrdering
  | StatusError
  deriving DecidableEq

/-- Order sides of `Exchange.TradeType`. The source names four of them; every
other value of the Go type is `other`. -/
inductive TradeType
  | TradeTypeOpenLong
  | TradeTypeOpenShort
  | TradeTypeBuy
  | TradeTypeSell
  | other (code : Nat)
  deriving DecidableEq

/-- The fields of `Exchange.TradeConfig` that `okexdiff.go` writes (`Typ` is the
Go field `Type`). -/
structure TradeConfig where
  Batch : String
  Coin : String
  Typ : TradeType
  Price : ℚ
  Amount : ℚ
  Limit : ℚ
  deriving DecidableEq

/-- Error codes of the task package used by `okexdiff.go`. -/
inductive TaskError
  | TaskErrorSuccess
  | TaskErrorStatus
  | TaskInvalidConfig
  | TaskLostMongodb
  | other (code : Nat)
  deriving DecidableEq

/-- The fields of `TradeResult` that `okexdiff.go` reads. -/
structure TradeResult where
  Error : TaskError
  Balance : ℚ
  deriving DecidableEq

/-- The field of `Exchange.TickerValue` that `okexdiff.go` reads. -/
structure TickerValue where
  Last : ℚ
  deriving DecidableEq

/-- One open hedge, `OperationItem` (lines 58-61). -/
structure OperationItem where
  futureConfig : TradeConfig
  spotConfig : TradeConfig
  deriving DecidableEq

/-- Per-asset thresholds, `TriggerArea` (lines 71-75). -/
structure TriggerArea where
  Open : ℚ
  Close : ℚ
  Position : ℚ
  deriving DecidableEq

/-- Configuration, `AnalyzerConfig` (lines 63-69); `Area` is a Go map. -/
structure AnalyzerConfig where
  API : String
  Secret : String
  Area : List (String × TriggerArea)
  LimitOpen : ℚ
  LimitClose : ℚ
  deriving DecidableEq

/-- The two exchange objects `Start` creates. -/
inductive ExchangeId
  | okexFuture
  | okexSpot
  deriving DecidableEq

/-- The map `ops map[uint]*OperationItem`: keys with possibly-nil pointers. -/
abbrev Ledger := List (Nat × Option OperationItem)

/-- The analyzer, `IAnalyzer` (lines 37-56). `tradeDB` and `orderDB` hold the
collection name of the handle when it is non-nil; `conn` says whether the
websocket connection is non-nil. -/
structure IAnalyzer where
  config : AnalyzerConfig
  future : Option ExchangeId
  spot : Option ExchangeId
  status : StatusType
  ops : Ledger
  opIndex : Nat
  tradeDB : Option String
  orderDB : Option String
  conn : Bool
  deriving DecidableEq

/-- Where in the source an order was handed to `ProcessTradeRoutine`: the two
first legs of `placeOrdersByQuantity` (lines 358-359), its compensating order
(lines 405 and 418), or a close in `checkPosition` (lines 465-466) together
with the ledger index being visited. -/
inductive Site
  | opening
  | unwind
  | closing (index : Nat)
  deriving DecidableEq

/-- Observable actions of the analyzer. -/
inductive Event
  | publish (topic coin : String) (futurePrice spotPrice difference : ℚ)
  | placeOrders (future : Option ExchangeId) (futureConfig : TradeConfig)
      (spot : Option ExchangeId) (spotConfig : TradeConfig)
  | order (site : Site) (exchange : Option ExchangeId) (config : TradeConfig)
      (result : TradeResult)
  deriving DecidableEq

/-- The collaborators of the analyzer. `ProcessTradeRoutine` and
`GetRandomHexString` may answer differently at every call, so they receive the
log of everything that happened before. -/
structure Env where
  GetTickerValue : ExchangeId → String → Option TickerValue
  GetRandomHexString : List Event → String
  ProcessTradeRoutine : List Event → Option ExchangeId → TradeConfig → TradeResult
  InPriceArea : ℚ → ℚ → ℚ → Bool
  RevertTradeType : TradeType → TradeType
  jsonUnmarshal : String → Option AnalyzerConfig
  tradeDBConnect : Bool
  orderDBConnect : Bool
  wsDial : Bool

/-- Result of a method that can hit a runtime panic: the analyzer and the log
at the return, or at the panic. -/
inductive Outcome
  | returned (a : IAnalyzer) (log : List Event)
  | crashed (a : IAnalyzer) (log : List Event)
  deriving DecidableEq

/-- The analyzer an outcome ends with. -/
def Outcome.state : Outcome → IAnalyzer
  | .returned a _ => a
  | .crashed a _ => a

/-- The log an outcome ends with. -/
def Outcome.log : Outcome → List Event
  | .returned _ l => l
  | .crashed _ l => l

/-- Whether the method returned normally. -/
def Outcome.completed : Outcome → Bool
  | .returned _ _ => true
  | .crashed _ _ => false

/-! ## Map operations -/

/-- The zero value of `TriggerArea`. -/
def TriggerArea.zero : TriggerArea := ⟨0, 0, 0⟩

/-- Map read `m[k]` on `map[string]TriggerArea`: the zero value for a missing key. -/
def areaAt (m : List (String × TriggerArea)) (k : String) : TriggerArea :=
  (m.lookup k).getD TriggerArea.zero

/-- Keys of the ledger. -/
def Ledger.keys (l : Ledger) : List Nat := l.map Prod.fst

/-- A write through the pointer stored under `k`: the item under `k` changes, no
key is added or removed. -/
def Ledger.modify (l : Ledger) (k : Nat) (v : Option OperationItem) : Ledger :=
  l.map (fun e => if e.1 = k then (k, v) else e)

/-- Map write `m[k] = v`. -/
def Ledger.set (l : Ledger) (k : Nat) (v : Option OperationItem) : Ledger :=
  if k ∈ l.keys then l.modify k v else l ++ [(k, v)]

/-- Map removal `delete(m, k)`. -/
def Ledger.delete (l : Ledger) (k : Nat) : Ledger :=
  l.filter (fun e => e.1 ≠ k)

/-- Go `math.Trunc`: the integer part, rounding toward zero. -/
def mathTrunc (x : ℚ) : ℚ := ((x.num.tdiv (x.den : ℤ) : ℤ) : ℚ)

/-- Width of the Go type `uint` on a 64-bit platform. -/
def uintBits : Nat := 64

/-! ## `defaultConfig` (lines 77-92) -/

/-- The default configuration, `defaultConfig` of the source. -/
def defaultConfig : AnalyzerConfig :=
  { API := ""
    Secret := ""
    Area := [("btc", ⟨1.6, 0.5, 10⟩), ("ltc", ⟨3, 1.5, 10⟩)]
    LimitOpen := 0.005
    LimitClose := 0.03 }

/-! ## `wsConnect`, `wsPublish` (lines 106-139) -/

/-- Method `wsConnect`: the connection is stored when the dial succeeds. -/
def wsConnect (env : Env) (a : IAnalyzer) : IAnalyzer :=
  if env.wsDial then { a with conn := true } else a

/-- Method `wsPublish`: a message is written when the connection is non-nil. -/
def wsPublish (a : IAnalyzer) (topic coin : String) (f s d : ℚ) (log : List Event) :
    List Event :=
  if a.conn then log ++ [Event.publish topic coin f s d] else log

/-! ## `Start` (lines 141-245), synchronous part -/

/-- Method `Start` up to its `return`; the goroutine it launches runs later. The
second component is the returned error (`none` for `nil`). -/
def Start (env : Env) (a : IAnalyzer) (_api _secret configJSON : String) :
    IAnalyzer × Option TaskError :=
  if a.status ≠ StatusType.StatusNone then
    (a, some TaskError.TaskErrorStatus)
  else
    let a1 := { a with status := StatusType.StatusProcessing }
    let parsed : Option IAnalyzer :=
      if configJSON ≠ "" then
        match env.jsonUnmarshal configJSON with
        | none => none
        | some config => some { a1 with config := config }
      else
        some { a1 with config := defaultConfig }
    match parsed with
    | none => (a1, some TaskError.TaskInvalidConfig)
    | some a2 =>
      let a3 := { a2 with ops := [] }
      let a4 := { a3 with tradeDB := some "DiffOKExFutureSpotTrade" }
      if ¬ env.tradeDBConnect then
        (a4, some TaskError.TaskLostMongodb)
      else
        let a5 := { a4 with orderDB := some "DiffOKExFutureSpotOrder" }
        if ¬ env.orderDBConnect then
          (a5, some TaskError.TaskLostMongodb)
        else
          (wsConnect env a5, none)

/-! ## `Close` (lines 324-341) -/

/-- Method `Close`: the status is reset first; calling `Close` on a nil exchange
interface panics. -/
def Close (a : IAnalyzer) (log : List Event) : Outcome :=
  let a1 := { a with status := StatusType.StatusNone }
  match a1.future, a1.spot with
  | some _, some _ => Outcome.returned a1 log
  | _, _ => Outcome.crashed a1 log

/-! ## `placeOrdersByQuantity` (lines 346-436) -/

/-- Lines 353-436 of `placeOrdersByQuantity`: everything behind the guard of
lines 349-351. -/
def placeOrdersBody (env : Env) (a : IAnalyzer) (future : Option ExchangeId)
    (futureConfig : TradeConfig) (spot : Option ExchangeId) (spotConfig : TradeConfig)
    (log : List Event) : IAnalyzer × List Event :=
  if a.status ≠ StatusType.StatusProcessing then
    (a, log)
  else
    let futureResult := env.ProcessTradeRoutine log future futureConfig
    let log1 := log ++ [Event.order Site.opening future futureConfig futureResult]
    let spotResult := env.ProcessTradeRoutine log1 spot spotConfig
    let log2 := log1 ++ [Event.order Site.opening spot spotConfig spotResult]
    let futureConfig1 := { futureConfig with Typ := env.RevertTradeType futureConfig.Typ }
    let spotConfig1 := { spotConfig with Typ := env.RevertTradeType spotConfig.Typ }
    let spotConfig2 :=
      { spotConfig1 with Amount := mathTrunc (spotResult.Balance * 100) / 100 }
    let operation : OperationItem :=
      { futureConfig := futureConfig1, spotConfig := spotConfig2 }
    if futureResult.Error = TaskError.TaskErrorSuccess
        ∧ spotResult.Error = TaskError.TaskErrorSuccess then
      ({ a with ops := a.ops.set a.opIndex (some operation)
                opIndex := (a.opIndex + 1) % 2 ^ uintBits }, log2)
    else if futureResult.Error = TaskError.TaskErrorSuccess
        ∧ spotResult.Error ≠ TaskError.TaskErrorSuccess then
      let spotResult1 := env.ProcessTradeRoutine log2 spot operation.spotConfig
      let log3 := log2 ++ [Event.order Site.unwind spot operation.spotConfig spotResult1]
      if spotResult1.Error ≠ TaskError.TaskErrorSuccess then
        ({ a with status := StatusType.StatusError }, log3)
      else
        (a, log3)
    else if futureResult.Error ≠ TaskError.TaskErrorSuccess
        ∧ spotResult.Error = TaskError.TaskErrorSuccess then
      let futureResult1 := env.ProcessTradeRoutine log2 spot operation.futureConfig
      let log3 := log2 ++ [Event.order Site.unwind spot operation.futureConfig futureResult1]
      if futureResult1.Error ≠ TaskError.TaskErrorSuccess then
        ({ a with status := StatusType.StatusError }, log3)
      else
        (a, log3)
    else
      ({ a with status := StatusType.StatusError }, log2)

/-- Method `placeOrdersByQuantity`: lines 349-351 are `if true { return }`. -/
def placeOrdersByQuantity (env : Env) (a : IAnalyzer) (future : Option ExchangeId)
    (futureConfig : TradeConfig) (spot : Option ExchangeId) (spotConfig : TradeConfig)
    (log : List Event) : IAnalyzer × List Event :=
  if true then
    (a, log)
  else
    placeOrdersBody env a future futureConfig spot spotConfig log

/-! ## `checkPosition` (lines 438-509) -/

/-- The slice `closeConditions` of lines 447-452. -/
def closeConditions (env : Env) (a : IAnalyzer) (coin : String) (futurePrice spotPrice : ℚ)
    (op : OperationItem) : List Bool :=
  [ !env.InPriceArea futurePrice op.futureConfig.Price a.config.LimitClose,
    decide (|(futurePrice - spotPrice) * 100 / spotPrice| < (areaAt a.config.Area coin).Close) ]

/-- Lines 462-463: the two price fields of the item are overwritten. -/
def refreshPrices (op : OperationItem) (futurePrice spotPrice : ℚ) : OperationItem :=
  { futureConfig := { op.futureConfig with Price := futurePrice }
    spotConfig := { op.spotConfig with Price := spotPrice } }

/-- Lines 460-499: the body run for the first condition that holds. -/
def closeOperation (env : Env) (a : IAnalyzer) (index : Nat) (op : OperationItem)
    (futurePrice spotPrice : ℚ) (log : List Event) : IAnalyzer × List Event :=
  let op1 : OperationItem := refreshPrices op futurePrice spotPrice
  let a1 := { a with ops := a.ops.modify index (some op1) }
  let futureResult := env.ProcessTradeRoutine log a1.future op1.futureConfig
  let log1 := log ++ [Event.order (Site.closing index) a1.future op1.futureConfig futureResult]
  let spotResult := env.ProcessTradeRoutine log1 a1.spot op1.spotConfig
  let log2 := log1 ++ [Event.order (Site.closing index) a1.spot op1.spotConfig spotResult]
  if futureResult.Error = TaskError.TaskErrorSuccess
      ∧ spotResult.Error = TaskError.TaskErrorSuccess then
    ({ a1 with ops := a1.ops.delete index }, log2)
  else
    ({ a1 with status := StatusType.StatusError }, log2)

/-- Lines 456-502: the loop over `closeConditions`, left by `break` after the
first condition that holds. -/
def conditionLoop (env : Env) (index : Nat) (op : OperationItem) (futurePrice spotPrice : ℚ) :
    List Bool → IAnalyzer → List Event → IAnalyzer × List Event
  | [], a, log => (a, log)
  | condition :: rest, a, log =>
    if condition then
      closeOperation env a index op futurePrice spotPrice log
    else
      conditionLoop env index op futurePrice spotPrice rest a log

/-- Lines 440-503: the loop over the entries of `a.ops`, given the entries that
`range` still has to visit. -/
def positionLoop (env : Env) (coin : String) (futurePrice spotPrice : ℚ) :
    Ledger → IAnalyzer → List Event → IAnalyzer × List Event
  | [], a, log => (a, log)
  | (_, none) :: rest, a, log => positionLoop env coin futurePrice spotPrice rest a log
  | (index, some op) :: rest, a, log =>
    let r := conditionLoop env index op futurePrice spotPrice
      (closeConditions env a coin futurePrice spotPrice op) a log
    positionLoop env coin futurePrice spotPrice rest r.1 r.2

/-- Method `checkPosition`; the last component is the returned `bool`. -/
def checkPosition (env : Env) (a : IAnalyzer) (coin : String) (futurePrice spotPrice : ℚ)
    (log : List Event) : IAnalyzer × List Event × Bool :=
  if a.ops.length ≠ 0 then
    let r := positionLoop env coin futurePrice spotPrice a.ops a log
    (r.1, r.2, true)
  else
    (a, log, false)

/-! ## `Watch` (lines 247-322) -/

/-- Lines 251-317: one pass of the loop body of `Watch` for the map key `key`. -/
def watchAsset (env : Env) (key : String) (a : IAnalyzer) (log : List Event) : Outcome :=
  let coinName := key ++ "/usdt"
  match a.future with
  | none => Outcome.crashed a log
  | some fx =>
    let valuefuture := env.GetTickerValue fx (coinName ++ "future")
    match a.spot with
    | none => Outcome.crashed a log
    | some sx =>
      let valueCurrent := env.GetTickerValue sx (coinName ++ "spot")
      -- line 256 reads `valuefuture.Last` and `valueCurrent.Last`
      match valuefuture, valueCurrent with
      | some vf, some vc =>
        let difference := (vf.Last - vc.Last) * 100 / vc.Last
        let log1 := wsPublish a "okexdiff" coinName vf.Last vc.Last difference log
        let r := checkPosition env a coinName vf.Last vc.Last log1
        if r.2.2 then
          Outcome.returned r.1 r.2.1
        else if valuefuture.isSome ∧ valueCurrent.isSome then
          if |difference| > (areaAt r.1.config.Area coinName).Open then
            if vf.Last > vc.Last then
              let batch := env.GetRandomHexString r.2.1
              let fc : TradeConfig :=
                { Batch := batch, Coin := coinName, Typ := TradeType.TradeTypeOpenShort,
                  Price := vf.Last, Amount := 5, Limit := r.1.config.LimitOpen }
              let sc : TradeConfig :=
                { Batch := batch, Coin := coinName, Typ := TradeType.TradeTypeBuy,
                  Price := vc.Last, Amount := 50 / vc.Last, Limit := r.1.config.LimitOpen }
              let p := placeOrdersByQuantity env r.1 r.1.future fc r.1.spot sc
                (r.2.1 ++ [Event.placeOrders r.1.future fc r.1.spot sc])
              Outcome.returned p.1 p.2
            else
              let batch := env.GetRandomHexString r.2.1
              let fc : TradeConfig :=
                { Batch := batch, Coin := coinName, Typ := TradeType.TradeTypeOpenLong,
                  Price := vf.Last, Amount := 5, Limit := r.1.config.LimitOpen }
              let sc : TradeConfig :=
                { Batch := batch, Coin := coinName, Typ := TradeType.TradeTypeSell,
                  Price := vc.Last, Amount := 50 / vc.Last, Limit := r.1.config.LimitOpen }
              let p := placeOrdersByQuantity env r.1 r.1.future fc r.1.spot sc
                (r.2.1 ++ [Event.placeOrders r.1.future fc r.1.spot sc])
              Outcome.returned p.1 p.2
          else
            Outcome.returned r.1 r.2.1
        else
          Outcome.returned r.1 r.2.1
      | _, _ => Outcome.crashed a log

/-- Lines 250-318: the loop of `Watch` over the keys `range` still has to visit. -/
def watchLoop (env : Env) : List String → IAnalyzer → List Event → Outcome
  | [], a, log => Outcome.returned a log
  | key :: rest, a, log =>
    match watchAsset env key a log with
    | Outcome.returned a1 log1 => watchLoop env rest a1 log1
    | Outcome.crashed a1 log1 => Outcome.crashed a1 log1

/-- Method `Watch`. -/
def Watch (env : Env) (a : IAnalyzer) (log : List Event) : Outcome :=
  watchLoop env (a.config.Area.map Prod.fst) a log

/-! ## Vocabulary of the statements -/

/-- Some close condition of lines 447-452 holds for the item. -/
def closeDue (env : Env) (a : IAnalyzer) (coin : String) (futurePrice spotPrice : ℚ)
    (op : OperationItem) : Bool :=
  (closeConditions env a coin futurePrice spotPrice op).any id

/-- No close is due for a ledger entry: the pointer is nil or no condition holds. -/
def noCloseDue (env : Env) (a : IAnalyzer) (coin : String) (futurePrice spotPrice : ℚ)
    (e : Option OperationItem) : Bool :=
  match e with
  | none => true
  | some op => !closeDue env a coin futurePrice spotPrice op

/-- The event is an order issued by a close of ledger index `k`. -/
def Event.isCloseOf (k : Nat) : Event → Bool
  | Event.order (Site.closing i) _ _ _ => decide (i = k)
  | _ => false

/-- The orders of a log that were issued by a close of ledger index `k`. -/
def closeOrders (log : List Event) (k : Nat) : List Event :=
  log.filter (Event.isCloseOf k)

/-- The event is an order handed to `ProcessTradeRoutine`. -/
def Event.isOrder : Event → Bool
  | Event.order _ _ _ _ => true
  | _ => false

/-- The event is no order that reported a failure. -/
def Event.noFailure : Event → Bool
  | Event.order _ _ _ r => decide (r.Error = TaskError.TaskErrorSuccess)
  | _ => true

/-- The calls of `placeOrdersByQuantity` recorded in a log. -/
def Event.isPlaceOrders : Event → Bool
  | Event.placeOrders _ _ _ _ => true
  | _ => false

/-- The spread of line 256. -/
def spread (futurePrice spotPrice : ℚ) : ℚ :=
  (futurePrice - spotPrice) * 100 / spotPrice

/-! ## Concrete scenarios -/

/-- Modelled from the spec: `InPriceArea` is not part of okexdiff.go; section 4.2
describes the stop-loss as the price having "moved outside ±LimitClose of the
price at which the future leg was opened". -/
def inPriceAreaBand (price base limit : ℚ) : Bool :=
  decide (base * (1 - limit) ≤ price ∧ price ≤ base * (1 + limit))

/-- A sample `RevertTradeType`: buy and sell swap, an open becomes the matching
close (codes 3 and 4). -/
def revertSample : TradeType → TradeType
  | TradeType.TradeTypeOpenLong => TradeType.other 3
  | TradeType.TradeTypeOpenShort => TradeType.other 4
  | TradeType.TradeTypeBuy => TradeType.TradeTypeSell
  | TradeType.TradeTypeSell => TradeType.TradeTypeBuy
  | TradeType.other n => TradeType.other n

/-- Tickers of a market in which btc and ltc trade at the given prices; an
absent price is a ticker that has not arrived yet. -/
def tickers (btcFuture btcSpot ltcFuture ltcSpot : Option ℚ) :
    ExchangeId → String → Option TickerValue
  | ExchangeId.okexFuture, name =>
    if name = "btc/usdtfuture" then btcFuture.map TickerValue.mk
    else if name = "ltc/usdtfuture" then ltcFuture.map TickerValue.mk
    else none
  | ExchangeId.okexSpot, name =>
    if name = "btc/usdtspot" then btcSpot.map TickerValue.mk
    else if name = "ltc/usdtspot" then ltcSpot.map TickerValue.mk
    else none

/-- An environment with the given tickers in which an order on the future
exchange succeeds iff `futureOk` and an order on the spot exchange succeeds iff
`spotOk`; a JSON document parses iff it is `"{}"`; the databases connect iff
`dbOk`. -/
def sampleEnv (ticker : ExchangeId → String → Option TickerValue)
    (futureOk spotOk dbOk : Bool) : Env :=
  { GetTickerValue := ticker
    GetRandomHexString := fun _ => "0123456789ab"
    ProcessTradeRoutine := fun _ x c =>
      match x with
      | some ExchangeId.okexFuture =>
        if futureOk then ⟨TaskError.TaskErrorSuccess, c.Amount⟩ else ⟨TaskError.other 1, 0⟩
      | _ =>
        if spotOk then ⟨TaskError.TaskErrorSuccess, c.Amount⟩ else ⟨TaskError.other 1, 0⟩
    InPriceArea := inPriceAreaBand
    RevertTradeType := revertSample
    jsonUnmarshal := fun doc => if doc = "{}" then some ⟨"", "", [], 0, 0⟩ else none
    tradeDBConnect := dbOk
    orderDBConnect := dbOk
    wsDial := true }

/-- No ticker has arrived; every order succeeds; the databases connect. -/
def calmEnv : Env := sampleEnv (tickers none none none none) true true true

/-- As `calmEnv`, but every order on the spot exchange fails. -/
def spotDownEnv : Env := sampleEnv (tickers none none none none) true false true

/-- As `calmEnv`, but the databases do not connect. -/
def dbDownEnv : Env := sampleEnv (tickers none none none none) true true false

/-- Every order succeeds and the four tickers show the given prices. -/
def marketEnv (btcFuture btcSpot ltcFuture ltcSpot : Option ℚ) : Env :=
  sampleEnv (tickers btcFuture btcSpot ltcFuture ltcSpot) true true true

/-- An analyzer that has not been started. -/
def idleAnalyzer : IAnalyzer :=
  { config := ⟨"", "", [], 0, 0⟩
    future := none
    spot := none
    status := StatusType.StatusNone
    ops := []
    opIndex := 0
    tradeDB := none
    orderDB := none
    conn := false }

/-- A running analyzer with the default configuration, both exchanges
connected and the given ledger. -/
def runningAnalyzer (ops : Ledger) (opIndex : Nat) : IAnalyzer :=
  { config := defaultConfig
    future := some ExchangeId.okexFuture
    spot := some ExchangeId.okexSpot
    status := StatusType.StatusProcessing
    ops := ops
    opIndex := opIndex
    tradeDB := some "DiffOKExFutureSpotTrade"
    orderDB := some "DiffOKExFutureSpotOrder"
    conn := true }

/-- The future leg of a btc open at future price 102. -/
def btcFutureLeg : TradeConfig :=
  { Batch := "0123456789ab", Coin := "btc/usdt", Typ := TradeType.TradeTypeOpenShort,
    Price := 102, Amount := 5, Limit := 0.005 }

/-- The spot leg of a btc open at spot price 100. -/
def btcSpotLeg : TradeConfig :=
  { Batch := "0123456789ab", Coin := "btc/usdt", Typ := TradeType.TradeTypeBuy,
    Price := 100, Amount := 50 / 100, Limit := 0.005 }

/-- The ledger item of a btc hedge opened at future 102 and spot 100, as lines
385-394 would store it. -/
def btcPosition : OperationItem :=
  { futureConfig := { btcFutureLeg with Typ := revertSample btcFutureLeg.Typ }
    spotConfig := { btcSpotLeg with Typ := revertSample btcSpotLeg.Typ } }

/-- The ledger item of an ltc hedge opened at future 52 and spot 50. -/
def ltcPosition : OperationItem :=
  { futureConfig :=
      { Batch := "ba9876543210", Coin := "ltc/usdt", Typ := TradeType.other 4,
        Price := 52, Amount := 5, Limit := 0.005 }
    spotConfig :=
      { Batch := "ba9876543210", Coin := "ltc/usdt", Typ := TradeType.TradeTypeSell,
        Price := 50, Amount := 1, Limit := 0.005 } }

/-- A running analyzer holding a btc hedge under key 0 and an ltc hedge under
key 1. -/
def hedgedAnalyzer : IAnalyzer :=
  runningAnalyzer [(0, some btcPosition), (1, some ltcPosition)] 2

/-! ## Ledger lemmas -/

theorem Ledger.keys_modify (l : Ledger) (k : Nat) (x : Option OperationItem) :
    (l.modify k x).keys = l.keys := by
  induction l with
  | nil => rfl
  | cons e t ih =>
    simp only [Ledger.modify, Ledger.keys, List.map_cons] at ih ⊢
    by_cases h : e.1 = k
    · simp [h, ih]
    · simp [h, ih]

theorem Ledger.mem_modify_ne (l : Ledger) (k j : Nat) (x v : Option OperationItem)
    (h : j ≠ k) : (j, v) ∈ l.modify k x ↔ (j, v) ∈ l := by
  induction l with
  | nil => simp [Ledger.modify]
  | cons e t ih =>
    simp only [Ledger.modify, List.map_cons, List.mem_cons] at ih ⊢
    rw [ih]
    by_cases he : e.1 = k
    · have h1 : (j, v) ≠ (k, x) := fun hh => h (congrArg Prod.fst hh)
      have h2 : (j, v) ≠ e := fun hh => h (by rw [← hh] at he; exact he)
      simp [he, h1, h2]
    · simp [he]

theorem Ledger.mem_modify_self (l : Ledger) (k : Nat) (x v : Option OperationItem) :
    (k, v) ∈ l.modify k x ↔ v = x ∧ k ∈ l.keys := by
  induction l with
  | nil => simp [Ledger.modify, Ledger.keys]
  | cons e t ih =>
    simp only [Ledger.modify, Ledger.keys, List.map_cons, List.mem_cons] at ih ⊢
    rw [ih]
    by_cases he : e.1 = k
    · simp only [he, if_true, Prod.mk.injEq, true_and]
      constructor
      · rintro (h | h)
        · exact ⟨h, Or.inl trivial⟩
        · exact ⟨h.1, Or.inr h.2⟩
      · rintro ⟨h, _⟩
        exact Or.inl h
    · simp only [he, if_false]
      constructor
      · rintro (h | h)
        · exact absurd (congrArg Prod.fst h).symm he
        · exact ⟨h.1, Or.inr h.2⟩
      · rintro ⟨h, h2 | h2⟩
        · exact absurd h2.symm he
        · exact Or.inr ⟨h, h2⟩

theorem Ledger.mem_delete (l : Ledger) (k j : Nat) (v : Option OperationItem) :
    (j, v) ∈ l.delete k ↔ j ≠ k ∧ (j, v) ∈ l := by
  simp [Ledger.delete, and_comm]

theorem Ledger.mem_keys (l : Ledger) (k : Nat) :
    k ∈ l.keys ↔ ∃ v, (k, v) ∈ l := by
  simp [Ledger.keys]

theorem Ledger.value_unique (l : Ledger) (h : l.keys.Nodup) (k : Nat)
    (v w : Option OperationItem) (hv : (k, v) ∈ l) (hw : (k, w) ∈ l) : v = w := by
  induction l with
  | nil => simp at hv
  | cons e t ih =>
    simp only [Ledger.keys, List.map_cons, List.nodup_cons, List.mem_map, not_exists,
      not_and] at h ih
    rcases List.mem_cons.1 hv with hv | hv <;> rcases List.mem_cons.1 hw with hw | hw
    · have := hv.trans hw.symm
      simpa using this
    · exact absurd (by rw [← hv]) (h.1 (k, w) hw)
    · exact absurd (by rw [← hw]) (h.1 (k, v) hv)
    · exact ih h.2 hv hw

/-! ## One ledger entry of `checkPosition` -/

theorem closeConditions_config (env : Env) (a b : IAnalyzer) (h : b.config = a.config)
    (coin : String) (fp sp : ℚ) (op : OperationItem) :
    closeConditions env b coin fp sp op = closeConditions env a coin fp sp op := by
  simp [closeConditions, h]

theorem closeDue_config (env : Env) (a b : IAnalyzer) (h : b.config = a.config)
    (coin : String) (fp sp : ℚ) (op : OperationItem) :
    closeDue env b coin fp sp op = closeDue env a coin fp sp op := by
  simp [closeDue, closeConditions_config env a b h]

theorem noCloseDue_config (env : Env) (a b : IAnalyzer) (h : b.config = a.config)
    (coin : String) (fp sp : ℚ) (e : Option OperationItem) :
    noCloseDue env b coin fp sp e = noCloseDue env a coin fp sp e := by
  cases e with
  | none => rfl
  | some op => simp [noCloseDue, closeDue_config env a b h]

/-- When the threshold read at line 450 is not positive, the reversion
condition cannot hold: a close is due only through the stop-loss condition. -/
theorem closeDue_without_threshold (env : Env) (a : IAnalyzer) (coin : String) (fp sp : ℚ)
    (op : OperationItem) (h : (areaAt a.config.Area coin).Close ≤ 0) :
    closeDue env a coin fp sp op
      = !env.InPriceArea fp op.futureConfig.Price a.config.LimitClose := by
  have hn : ¬ |(fp - sp) * 100 / sp| < (areaAt a.config.Area coin).Close :=
    not_lt.2 (h.trans (abs_nonneg _))
  simp [closeDue, closeConditions, hn]

theorem conditionLoop_eq (env : Env) (k : Nat) (op : OperationItem) (fp sp : ℚ)
    (cs : List Bool) (a : IAnalyzer) (log : List Event) :
    conditionLoop env k op fp sp cs a log =
      if cs.any id = true then closeOperation env a k op fp sp log else (a, log) := by
  induction cs with
  | nil => simp [conditionLoop]
  | cons c t ih =>
    cases c with
    | true => simp [conditionLoop]
    | false => simpa [conditionLoop] using ih

theorem positionLoop_cons (env : Env) (coin : String) (fp sp : ℚ) (x : Nat × Option OperationItem)
    (rest : Ledger) (a : IAnalyzer) (log : List Event) :
    positionLoop env coin fp sp (x :: rest) a log =
      positionLoop env coin fp sp rest (positionLoop env coin fp sp [x] a log).1
        (positionLoop env coin fp sp [x] a log).2 := by
  obtain ⟨k, e⟩ := x
  cases e with
  | none => simp [positionLoop]
  | some op => simp [positionLoop]

theorem positionLoop_single_idle (env : Env) (coin : String) (fp sp : ℚ) (k : Nat)
    (e : Option OperationItem) (a : IAnalyzer) (log : List Event)
    (h : noCloseDue env a coin fp sp e = true) :
    positionLoop env coin fp sp [(k, e)] a log = (a, log) := by
  cases e with
  | none => simp [positionLoop]
  | some op =>
    have h1 : (closeConditions env a coin fp sp op).any id = false := by
      simpa [noCloseDue, closeDue] using h
    simp [positionLoop, conditionLoop_eq, h1]

theorem positionLoop_single_due (env : Env) (coin : String) (fp sp : ℚ) (k : Nat)
    (op : OperationItem) (a : IAnalyzer) (log : List Event)
    (h : closeDue env a coin fp sp op = true) :
    ∃ fr sr : TradeResult,
      (positionLoop env coin fp sp [(k, some op)] a log).2 =
          log ++ [Event.order (Site.closing k) a.future (refreshPrices op fp sp).futureConfig fr,
                  Event.order (Site.closing k) a.spot (refreshPrices op fp sp).spotConfig sr]
      ∧ ((fr.Error = TaskError.TaskErrorSuccess ∧ sr.Error = TaskError.TaskErrorSuccess) →
          (positionLoop env coin fp sp [(k, some op)] a log).1 =
            { a with ops := (a.ops.modify k (some (refreshPrices op fp sp))).delete k })
      ∧ (¬ (fr.Error = TaskError.TaskErrorSuccess ∧ sr.Error = TaskError.TaskErrorSuccess) →
          (positionLoop env coin fp sp [(k, some op)] a log).1 =
            { a with ops := a.ops.modify k (some (refreshPrices op fp sp))
                     status := StatusType.StatusError }) := by
  have h1 : (closeConditions env a coin fp sp op).any id = true := by
    simpa [closeDue] using h
  refine ⟨env.ProcessTradeRoutine log a.future (refreshPrices op fp sp).futureConfig,
    env.ProcessTradeRoutine
      (log ++ [Event.order (Site.closing k) a.future (refreshPrices op fp sp).futureConfig
        (env.ProcessTradeRoutine log a.future (refreshPrices op fp sp).futureConfig)])
      a.spot (refreshPrices op fp sp).spotConfig, ?_, ?_, ?_⟩
  · simp only [positionLoop, conditionLoop_eq, h1, if_true, closeOperation]
    split <;> simp
  · intro hb
    simp only [positionLoop, conditionLoop_eq, h1, if_true, closeOperation]
    rw [if_pos hb]
  · intro hb
    simp only [positionLoop, conditionLoop_eq, h1, if_true, closeOperation]
    rw [if_neg hb]

theorem positionLoop_single_cases (env : Env) (coin : String) (fp sp : ℚ) (k : Nat)
    (e : Option OperationItem) (a : IAnalyzer) (log : List Event) :
    (noCloseDue env a coin fp sp e = true ∧ positionLoop env coin fp sp [(k, e)] a log = (a, log))
    ∨ ∃ op fr sr, e = some op ∧ closeDue env a coin fp sp op = true
        ∧ (positionLoop env coin fp sp [(k, e)] a log).2 =
            log ++ [Event.order (Site.closing k) a.future (refreshPrices op fp sp).futureConfig fr,
                    Event.order (Site.closing k) a.spot (refreshPrices op fp sp).spotConfig sr]
        ∧ (((fr.Error = TaskError.TaskErrorSuccess ∧ sr.Error = TaskError.TaskErrorSuccess)
              ∧ (positionLoop env coin fp sp [(k, e)] a log).1 =
                { a with ops := (a.ops.modify k (some (refreshPrices op fp sp))).delete k })
            ∨ (¬ (fr.Error = TaskError.TaskErrorSuccess ∧ sr.Error = TaskError.TaskErrorSuccess)
              ∧ (positionLoop env coin fp sp [(k, e)] a log).1 =
                { a with ops := a.ops.modify k (some (refreshPrices op fp sp))
                         status := StatusType.StatusError })) := by
  by_cases h : noCloseDue env a coin fp sp e = true
  · exact Or.inl ⟨h, positionLoop_single_idle env coin fp sp k e a log h⟩
  · right
    cases e with
    | none => simp [noCloseDue] at h
    | some op =>
      have hd : closeDue env a coin fp sp op = true := by
        simpa [noCloseDue] using h
      obtain ⟨fr, sr, h1, h2, h3⟩ := positionLoop_single_due env coin fp sp k op a log hd
      refine ⟨op, fr, sr, rfl, hd, h1, ?_⟩
      by_cases hb : fr.Error = TaskError.TaskErrorSuccess ∧ sr.Error = TaskError.TaskErrorSuccess
      · exact Or.inl ⟨hb, h2 hb⟩
      · exact Or.inr ⟨hb, h3 hb⟩

theorem positionLoop_single_frame (env : Env) (coin : String) (fp sp : ℚ) (k : Nat)
    (e : Option OperationItem) (a : IAnalyzer) (log : List Event) :
    (positionLoop env coin fp sp [(k, e)] a log).1.config = a.config
    ∧ (positionLoop env coin fp sp [(k, e)] a log).1.future = a.future
    ∧ (positionLoop env coin fp sp [(k, e)] a log).1.spot = a.spot
    ∧ (positionLoop env coin fp sp [(k, e)] a log).1.opIndex = a.opIndex
    ∧ (positionLoop env coin fp sp [(k, e)] a log).1.tradeDB = a.tradeDB
    ∧ (positionLoop env coin fp sp [(k, e)] a log).1.orderDB = a.orderDB
    ∧ (positionLoop env coin fp sp [(k, e)] a log).1.conn = a.conn
    ∧ ((positionLoop env coin fp sp [(k, e)] a log).1.status = a.status
        ∨ (positionLoop env coin fp sp [(k, e)] a log).1.status = StatusType.StatusError) := by
  rcases positionLoop_single_cases env coin fp sp k e a log with
    ⟨_, h⟩ | ⟨op, fr, sr, _, _, _, ⟨_, h⟩ | ⟨_, h⟩⟩ <;> simp [h]

theorem positionLoop_single_other (env : Env) (coin : String) (fp sp : ℚ) (k : Nat)
    (e : Option OperationItem) (a : IAnalyzer) (log : List Event) (j : Nat) (hj : j ≠ k)
    (v : Option OperationItem) :
    (j, v) ∈ (positionLoop env coin fp sp [(k, e)] a log).1.ops ↔ (j, v) ∈ a.ops := by
  rcases positionLoop_single_cases env coin fp sp k e a log with
    ⟨_, h⟩ | ⟨op, fr, sr, _, _, _, ⟨_, h⟩ | ⟨_, h⟩⟩
  · simp [h]
  · simp [h, Ledger.mem_delete, Ledger.mem_modify_ne _ _ _ _ _ hj, hj]
  · simp [h, Ledger.mem_modify_ne _ _ _ _ _ hj]

theorem positionLoop_single_keys (env : Env) (coin : String) (fp sp : ℚ) (k : Nat)
    (e : Option OperationItem) (a : IAnalyzer) (log : List Event) (j : Nat)
    (hj : j ∈ (positionLoop env coin fp sp [(k, e)] a log).1.ops.keys) : j ∈ a.ops.keys := by
  rcases positionLoop_single_cases env coin fp sp k e a log with
    ⟨_, h⟩ | ⟨op, fr, sr, _, _, _, ⟨_, h⟩ | ⟨_, h⟩⟩
  · simpa [h] using hj
  · rw [h] at hj
    obtain ⟨v, hv⟩ := (Ledger.mem_keys _ _).1 hj
    have hv2 := ((Ledger.mem_delete _ _ _ _).1 hv)
    have : j ∈ (a.ops.modify k (some (refreshPrices op fp sp))).keys :=
      (Ledger.mem_keys _ _).2 ⟨v, hv2.2⟩
    rwa [Ledger.keys_modify] at this
  · rw [h] at hj
    simpa [Ledger.keys_modify] using hj

theorem positionLoop_single_log (env : Env) (coin : String) (fp sp : ℚ) (k : Nat)
    (e : Option OperationItem) (a : IAnalyzer) (log : List Event) :
    ∃ ev, (positionLoop env coin fp sp [(k, e)] a log).2 = log ++ ev
      ∧ ∀ x ∈ ev, Event.isCloseOf k x = true := by
  rcases positionLoop_single_cases env coin fp sp k e a log with
    ⟨_, h⟩ | ⟨op, fr, sr, _, _, h, _⟩
  · exact ⟨[], by simp [h], by simp⟩
  · exact ⟨_, h, by simp [Event.isCloseOf]⟩

/-! ## The loop of `checkPosition` -/

theorem positionLoop_frame (env : Env) (coin : String) (fp sp : ℚ) (entries : Ledger) :
    ∀ (a : IAnalyzer) (log : List Event),
    (positionLoop env coin fp sp entries a log).1.config = a.config
    ∧ (positionLoop env coin fp sp entries a log).1.future = a.future
    ∧ (positionLoop env coin fp sp entries a log).1.spot = a.spot
    ∧ (positionLoop env coin fp sp entries a log).1.opIndex = a.opIndex
    ∧ (positionLoop env coin fp sp entries a log).1.tradeDB = a.tradeDB
    ∧ (positionLoop env coin fp sp entries a log).1.orderDB = a.orderDB
    ∧ (positionLoop env coin fp sp entries a log).1.conn = a.conn
    ∧ ((positionLoop env coin fp sp entries a log).1.status = a.status
        ∨ (positionLoop env coin fp sp entries a log).1.status = StatusType.StatusError) := by
  induction entries with
  | nil => intro a log; simp [positionLoop]
  | cons x rest ih =>
    intro a log
    rw [positionLoop_cons]
    obtain ⟨k, e⟩ := x
    obtain ⟨h1, h2, h3, h4, h5, h6, h7, h8⟩ := positionLoop_single_frame env coin fp sp k e a log
    obtain ⟨g1, g2, g3, g4, g5, g6, g7, g8⟩ :=
      ih (positionLoop env coin fp sp [(k, e)] a log).1 (positionLoop env coin fp sp [(k, e)] a log).2
    refine ⟨g1.trans h1, g2.trans h2, g3.trans h3, g4.trans h4, g5.trans h5, g6.trans h6,
      g7.trans h7, ?_⟩
    rcases g8 with g8 | g8
    · rcases h8 with h8 | h8
      · exact Or.inl (g8.trans h8)
      · exact Or.inr (g8.trans h8)
    · exact Or.inr g8

theorem positionLoop_log (env : Env) (coin : String) (fp sp : ℚ) (entries : Ledger) :
    ∀ (a : IAnalyzer) (log : List Event),
    ∃ ev, (positionLoop env coin fp sp entries a log).2 = log ++ ev
      ∧ ∀ x ∈ ev, ∃ k ∈ entries.keys, Event.isCloseOf k x = true := by
  induction entries with
  | nil => intro a log; exact ⟨[], by simp [positionLoop], by simp⟩
  | cons x rest ih =>
    intro a log
    rw [positionLoop_cons]
    obtain ⟨k, e⟩ := x
    obtain ⟨ev0, h0, hc0⟩ := positionLoop_single_log env coin fp sp k e a log
    obtain ⟨ev1, h1, hc1⟩ :=
      ih (positionLoop env coin fp sp [(k, e)] a log).1 (positionLoop env coin fp sp [(k, e)] a log).2
    refine ⟨ev0 ++ ev1, by rw [h1, h0, List.append_assoc], ?_⟩
    intro x hx
    rcases List.mem_append.1 hx with hx | hx
    · exact ⟨k, by simp [Ledger.keys], hc0 x hx⟩
    · obtain ⟨j, hj, hjx⟩ := hc1 x hx
      exact ⟨j, by simp [Ledger.keys] at hj ⊢; exact Or.inr hj, hjx⟩

theorem positionLoop_other (env : Env) (coin : String) (fp sp : ℚ) (entries : Ledger) :
    ∀ (a : IAnalyzer) (log : List Event) (j : Nat), j ∉ entries.keys →
    ∀ v, (j, v) ∈ (positionLoop env coin fp sp entries a log).1.ops ↔ (j, v) ∈ a.ops := by
  induction entries with
  | nil => intro a log j _ v; simp [positionLoop]
  | cons x rest ih =>
    intro a log j hj v
    rw [positionLoop_cons]
    obtain ⟨k, e⟩ := x
    have hjk : j ≠ k := by
      intro h; apply hj; simp [Ledger.keys, h]
    have hjr : j ∉ Ledger.keys rest := by
      intro h; apply hj; simp only [Ledger.keys, List.map_cons, List.mem_cons]; exact Or.inr h
    rw [ih _ _ j hjr v]
    exact positionLoop_single_other env coin fp sp k e a log j hjk v

theorem positionLoop_keys (env : Env) (coin : String) (fp sp : ℚ) (entries : Ledger) :
    ∀ (a : IAnalyzer) (log : List Event) (j : Nat),
    j ∈ (positionLoop env coin fp sp entries a log).1.ops.keys → j ∈ a.ops.keys := by
  induction entries with
  | nil => intro a log j hj; simpa [positionLoop] using hj
  | cons x rest ih =>
    intro a log j hj
    rw [positionLoop_cons] at hj
    obtain ⟨k, e⟩ := x
    exact positionLoop_single_keys env coin fp sp k e a log j (ih _ _ j hj)

theorem closeOrders_append (l m : List Event) (k : Nat) :
    closeOrders (l ++ m) k = closeOrders l k ++ closeOrders m k := by
  simp [closeOrders]

theorem closeOrders_foreign (ev : List Event) (keys : List Nat) (k : Nat) (hk : k ∉ keys)
    (h : ∀ x ∈ ev, ∃ j ∈ keys, Event.isCloseOf j x = true) : closeOrders ev k = [] := by
  simp only [closeOrders, List.filter_eq_nil_iff]
  intro x hx hxk
  obtain ⟨j, hj, hjx⟩ := h x hx
  cases x with
  | order site _ _ _ =>
    cases site with
    | closing i =>
      simp only [Event.isCloseOf, decide_eq_true_eq] at hjx hxk
      exact hk (by rw [← hxk, hjx]; exact hj)
    | opening => simp [Event.isCloseOf] at hxk
    | unwind => simp [Event.isCloseOf] at hxk
  | publish _ _ _ _ _ => simp [Event.isCloseOf] at hxk
  | placeOrders _ _ _ _ => simp [Event.isCloseOf] at hxk

theorem positionLoop_closeOrders_other (env : Env) (coin : String) (fp sp : ℚ)
    (entries : Ledger) (a : IAnalyzer) (log : List Event) (k : Nat) (hk : k ∉ entries.keys) :
    closeOrders (positionLoop env coin fp sp entries a log).2 k = closeOrders log k := by
  obtain ⟨ev, h, hc⟩ := positionLoop_log env coin fp sp entries a log
  rw [h, closeOrders_append, closeOrders_foreign ev entries.keys k hk hc, List.append_nil]

theorem positionLoop_error (env : Env) (coin : String) (fp sp : ℚ)
    (entries : Ledger) (a : IAnalyzer) (log : List Event)
    (h : a.status = StatusType.StatusError) :
    (positionLoop env coin fp sp entries a log).1.status = StatusType.StatusError := by
  rcases (positionLoop_frame env coin fp sp entries a log).2.2.2.2.2.2.2 with h1 | h1
  · exact h1.trans h
  · exact h1

theorem positionLoop_own (env : Env) (coin : String) (fp sp : ℚ) (entries : Ledger) :
    ∀ (a : IAnalyzer) (log : List Event), (Ledger.keys entries).Nodup →
    ∀ (k : Nat) (e : Option OperationItem), (k, e) ∈ entries →
      (noCloseDue env a coin fp sp e = true →
        (∀ v, (k, v) ∈ (positionLoop env coin fp sp entries a log).1.ops ↔ (k, v) ∈ a.ops)
        ∧ closeOrders (positionLoop env coin fp sp entries a log).2 k = closeOrders log k)
      ∧ (∀ op, e = some op → closeDue env a coin fp sp op = true →
          ∃ fr sr : TradeResult,
            closeOrders (positionLoop env coin fp sp entries a log).2 k =
              closeOrders log k ++
                [Event.order (Site.closing k) a.future (refreshPrices op fp sp).futureConfig fr,
                 Event.order (Site.closing k) a.spot (refreshPrices op fp sp).spotConfig sr]
            ∧ ((fr.Error = TaskError.TaskErrorSuccess ∧ sr.Error = TaskError.TaskErrorSuccess) →
                ∀ v, (k, v) ∉ (positionLoop env coin fp sp entries a log).1.ops)
            ∧ (¬ (fr.Error = TaskError.TaskErrorSuccess ∧ sr.Error = TaskError.TaskErrorSuccess) →
                (∀ v, (k, v) ∈ (positionLoop env coin fp sp entries a log).1.ops ↔
                  (v = some (refreshPrices op fp sp) ∧ k ∈ a.ops.keys))
                ∧ (positionLoop env coin fp sp entries a log).1.status =
                    StatusType.StatusError)) := by
  induction entries with
  | nil => intro a log _ k e he; simp at he
  | cons x rest ih =>
    intro a log hnd k e he
    obtain ⟨k0, e0⟩ := x
    have hnd0 : k0 ∉ Ledger.keys rest := by
      simp only [Ledger.keys, List.map_cons, List.nodup_cons] at hnd
      exact hnd.1
    have hndr : (Ledger.keys rest).Nodup := by
      simp only [Ledger.keys, List.map_cons, List.nodup_cons] at hnd
      exact hnd.2
    rw [positionLoop_cons]
    rcases List.mem_cons.1 he with he | he
    · -- the entry is the one visited now; the rest of the loop does not touch it
      have hk : k = k0 := congrArg Prod.fst he
      have hev : e = e0 := congrArg Prod.snd he
      subst hk; subst hev
      have hoth := positionLoop_other env coin fp sp rest
        (positionLoop env coin fp sp [(k, e)] a log).1
        (positionLoop env coin fp sp [(k, e)] a log).2 k hnd0
      have hco := positionLoop_closeOrders_other env coin fp sp rest
        (positionLoop env coin fp sp [(k, e)] a log).1
        (positionLoop env coin fp sp [(k, e)] a log).2 k hnd0
      constructor
      · intro hidle
        have h0 := positionLoop_single_idle env coin fp sp k e a log hidle
        refine ⟨fun v => ?_, ?_⟩
        · rw [hoth v, h0]
        · rw [hco, h0]
      · intro op hop hdue
        subst hop
        obtain ⟨fr, sr, h1, h2, h3⟩ := positionLoop_single_due env coin fp sp k op a log hdue
        refine ⟨fr, sr, ?_, ?_, ?_⟩
        · rw [hco, h1, closeOrders_append]
          simp [closeOrders, Event.isCloseOf]
        · intro hb v
          rw [hoth v, h2 hb]
          simp [Ledger.mem_delete]
        · intro hb
          refine ⟨fun v => ?_, ?_⟩
          · rw [hoth v, h3 hb]
            exact Ledger.mem_modify_self _ _ _ _
          · apply positionLoop_error
            rw [h3 hb]
    · -- the entry is visited later; the current visit does not touch it
      have hkr : k ∈ Ledger.keys rest := (Ledger.mem_keys _ _).2 ⟨e, he⟩
      have hk : k ≠ k0 := fun h => hnd0 (h ▸ hkr)
      obtain ⟨f1, f2, f3, _, _, _, _, _⟩ := positionLoop_single_frame env coin fp sp k0 e0 a log
      have hstep := positionLoop_single_other env coin fp sp k0 e0 a log k hk
      have hlog : closeOrders (positionLoop env coin fp sp [(k0, e0)] a log).2 k
          = closeOrders log k := by
        have := positionLoop_closeOrders_other env coin fp sp [(k0, e0)] a log k
          (by simp [Ledger.keys, hk])
        exact this
      obtain ⟨i1, i2⟩ := ih (positionLoop env coin fp sp [(k0, e0)] a log).1
        (positionLoop env coin fp sp [(k0, e0)] a log).2 hndr k e he
      constructor
      · intro hidle
        rw [← noCloseDue_config env a _ f1] at hidle
        obtain ⟨j1, j2⟩ := i1 hidle
        refine ⟨fun v => ?_, ?_⟩
        · rw [j1 v, hstep v]
        · rw [j2, hlog]
      · intro op hop hdue
        rw [← closeDue_config env a _ f1] at hdue
        obtain ⟨fr, sr, j1, j2, j3⟩ := i2 op hop hdue
        refine ⟨fr, sr, ?_, j2, ?_⟩
        · rw [j1, hlog, f2, f3]
        · intro hb
          obtain ⟨j4, j5⟩ := j3 hb
          refine ⟨fun v => ?_, j5⟩
          rw [j4 v, Ledger.mem_keys, Ledger.mem_keys]
          constructor
          · rintro ⟨hv, w, hw⟩
            exact ⟨hv, w, (hstep w).1 hw⟩
          · rintro ⟨hv, w, hw⟩
            exact ⟨hv, w, (hstep w).2 hw⟩

theorem positionLoop_idle (env : Env) (coin : String) (fp sp : ℚ) (entries : Ledger) :
    ∀ (a : IAnalyzer) (log : List Event),
    (∀ k e, (k, e) ∈ entries → noCloseDue env a coin fp sp e = true) →
    positionLoop env coin fp sp entries a log = (a, log) := by
  induction entries with
  | nil => intro a log _; simp [positionLoop]
  | cons x rest ih =>
    intro a log h
    obtain ⟨k, e⟩ := x
    rw [positionLoop_cons, positionLoop_single_idle env coin fp sp k e a log
      (h k e (List.mem_cons_self _ _))]
    exact ih a log (fun j w hw => h j w (List.mem_cons_of_mem _ hw))

/-! ## `checkPosition` -/

theorem checkPosition_state (env : Env) (a : IAnalyzer) (coin : String) (fp sp : ℚ)
    (log : List Event) :
    (checkPosition env a coin fp sp log).1 = (positionLoop env coin fp sp a.ops a log).1 := by
  unfold checkPosition
  split
  · rfl
  · next h =>
    have : a.ops = [] := by simpa using h
    simp [this, positionLoop]

theorem checkPosition_log (env : Env) (a : IAnalyzer) (coin : String) (fp sp : ℚ)
    (log : List Event) :
    (checkPosition env a coin fp sp log).2.1 = (positionLoop env coin fp sp a.ops a log).2 := by
  unfold checkPosition
  split
  · rfl
  · next h =>
    have : a.ops = [] := by simpa using h
    simp [this, positionLoop]

theorem checkPosition_held (env : Env) (a : IAnalyzer) (coin : String) (fp sp : ℚ)
    (log : List Event) :
    (checkPosition env a coin fp sp log).2.2 = true ↔ a.ops ≠ [] := by
  unfold checkPosition
  split
  · next h => simpa using h
  · next h => simpa using h

/-- C8. `checkPosition` on a ledger with distinct keys adds no key; leaves every
entry for which no close condition holds unchanged and submits nothing for it;
for an entry with a close condition it submits exactly one pair of close orders
(the refreshed future and spot configs), removes the entry when both legs
succeed, and otherwise keeps it (refreshed) and sets the status to Error; a key
disappears only through such a doubly successful close; and when no close of
the pass failed, a second pass with the same arguments changes nothing and
submits nothing. -/
theorem checkPosition_ledger_discipline (env : Env) (a : IAnalyzer) (coin : String)
    (fp sp : ℚ) (log : List Event) (hnd : a.ops.keys.Nodup) :
    ∃ ev, (checkPosition env a coin fp sp log).2.1 = log ++ ev
      ∧ (∀ k, k ∈ (checkPosition env a coin fp sp log).1.ops.keys → k ∈ a.ops.keys)
      ∧ (∀ k e, (k, e) ∈ a.ops → noCloseDue env a coin fp sp e = true →
          (k, e) ∈ (checkPosition env a coin fp sp log).1.ops ∧ closeOrders ev k = [])
      ∧ (∀ k op, (k, some op) ∈ a.ops → closeDue env a coin fp sp op = true →
          ∃ fr sr : TradeResult,
            closeOrders ev k =
              [Event.order (Site.closing k) a.future (refreshPrices op fp sp).futureConfig fr,
               Event.order (Site.closing k) a.spot (refreshPrices op fp sp).spotConfig sr]
            ∧ ((fr.Error = TaskError.TaskErrorSuccess ∧ sr.Error = TaskError.TaskErrorSuccess) →
                k ∉ (checkPosition env a coin fp sp log).1.ops.keys)
            ∧ (¬ (fr.Error = TaskError.TaskErrorSuccess ∧ sr.Error = TaskError.TaskErrorSuccess) →
                (k, some (refreshPrices op fp sp)) ∈ (checkPosition env a coin fp sp log).1.ops
                ∧ (checkPosition env a coin fp sp log).1.status = StatusType.StatusError))
      ∧ (∀ k, k ∈ a.ops.keys → k ∉ (checkPosition env a coin fp sp log).1.ops.keys →
          ∃ (op : OperationItem) (fr sr : TradeResult),
            (k, some op) ∈ a.ops ∧ closeDue env a coin fp sp op = true
            ∧ closeOrders ev k =
              [Event.order (Site.closing k) a.future (refreshPrices op fp sp).futureConfig fr,
               Event.order (Site.closing k) a.spot (refreshPrices op fp sp).spotConfig sr]
            ∧ fr.Error = TaskError.TaskErrorSuccess ∧ sr.Error = TaskError.TaskErrorSuccess)
      ∧ (∀ x ∈ ev, ∃ k ∈ a.ops.keys, Event.isCloseOf k x = true)
      ∧ ((∀ x ∈ ev, Event.noFailure x = true) →
          (checkPosition env (checkPosition env a coin fp sp log).1 coin fp sp
              (checkPosition env a coin fp sp log).2.1).1
            = (checkPosition env a coin fp sp log).1
          ∧ (checkPosition env (checkPosition env a coin fp sp log).1 coin fp sp
              (checkPosition env a coin fp sp log).2.1).2.1
            = (checkPosition env a coin fp sp log).2.1) := by
  obtain ⟨ev, hev, hclose⟩ := positionLoop_log env coin fp sp a.ops a log
  have hown := positionLoop_own env coin fp sp a.ops a log hnd
  have hcfg := (positionLoop_frame env coin fp sp a.ops a log).1
  -- the orders of one key among the new events
  have hsplit : ∀ k l, closeOrders (positionLoop env coin fp sp a.ops a log).2 k
      = closeOrders log k ++ l → closeOrders ev k = l := by
    intro k l h
    rw [hev, closeOrders_append] at h
    exact List.append_cancel_left h
  have hidle : ∀ k e, (k, e) ∈ a.ops → noCloseDue env a coin fp sp e = true →
      (k, e) ∈ (positionLoop env coin fp sp a.ops a log).1.ops ∧ closeOrders ev k = [] := by
    intro k e he hn
    obtain ⟨h1, h2⟩ := (hown k e he).1 hn
    exact ⟨(h1 e).2 he, hsplit k [] (by rw [h2, List.append_nil])⟩
  have hdue : ∀ k op, (k, some op) ∈ a.ops → closeDue env a coin fp sp op = true →
      ∃ fr sr : TradeResult,
        closeOrders ev k =
          [Event.order (Site.closing k) a.future (refreshPrices op fp sp).futureConfig fr,
           Event.order (Site.closing k) a.spot (refreshPrices op fp sp).spotConfig sr]
        ∧ ((fr.Error = TaskError.TaskErrorSuccess ∧ sr.Error = TaskError.TaskErrorSuccess) →
            k ∉ (positionLoop env coin fp sp a.ops a log).1.ops.keys)
        ∧ (¬ (fr.Error = TaskError.TaskErrorSuccess ∧ sr.Error = TaskError.TaskErrorSuccess) →
            (k, some (refreshPrices op fp sp)) ∈ (positionLoop env coin fp sp a.ops a log).1.ops
            ∧ (positionLoop env coin fp sp a.ops a log).1.status = StatusType.StatusError) := by
    intro k op he hd
    obtain ⟨fr, sr, h1, h2, h3⟩ := (hown k (some op) he).2 op rfl hd
    refine ⟨fr, sr, hsplit k _ h1, ?_, ?_⟩
    · intro hb hk
      obtain ⟨v, hv⟩ := (Ledger.mem_keys _ _).1 hk
      exact h2 hb v hv
    · intro hb
      obtain ⟨h4, h5⟩ := h3 hb
      exact ⟨(h4 _).2 ⟨rfl, (Ledger.mem_keys _ _).2 ⟨_, he⟩⟩, h5⟩
  have hgone : ∀ k, k ∈ a.ops.keys → k ∉ (positionLoop env coin fp sp a.ops a log).1.ops.keys →
      ∃ (op : OperationItem) (fr sr : TradeResult),
        (k, some op) ∈ a.ops ∧ closeDue env a coin fp sp op = true
        ∧ closeOrders ev k =
          [Event.order (Site.closing k) a.future (refreshPrices op fp sp).futureConfig fr,
           Event.order (Site.closing k) a.spot (refreshPrices op fp sp).spotConfig sr]
        ∧ fr.Error = TaskError.TaskErrorSuccess ∧ sr.Error = TaskError.TaskErrorSuccess := by
    intro k hk hgone
    obtain ⟨e, he⟩ := (Ledger.mem_keys _ _).1 hk
    by_cases hn : noCloseDue env a coin fp sp e = true
    · exact absurd ((Ledger.mem_keys _ _).2 ⟨e, (hidle k e he hn).1⟩) hgone
    · cases e with
      | none => simp [noCloseDue] at hn
      | some op =>
        have hd : closeDue env a coin fp sp op = true := by simpa [noCloseDue] using hn
        obtain ⟨fr, sr, h1, _, h3⟩ := hdue k op he hd
        by_cases hb : fr.Error = TaskError.TaskErrorSuccess ∧ sr.Error = TaskError.TaskErrorSuccess
        · exact ⟨op, fr, sr, he, hd, h1, hb.1, hb.2⟩
        · exact absurd ((Ledger.mem_keys _ _).2 ⟨_, (h3 hb).1⟩) hgone
  refine ⟨ev, by rw [checkPosition_log, hev], ?_, ?_, ?_, ?_, hclose, ?_⟩
  · intro k hk
    rw [checkPosition_state] at hk
    exact positionLoop_keys env coin fp sp a.ops a log k hk
  · rw [checkPosition_state]; exact hidle
  · rw [checkPosition_state]; exact hdue
  · rw [checkPosition_state]; exact hgone
  · intro hok
    -- every surviving entry has no close due, so the second pass is the identity
    have hsurv : ∀ k v, (k, v) ∈ (positionLoop env coin fp sp a.ops a log).1.ops →
        noCloseDue env (positionLoop env coin fp sp a.ops a log).1 coin fp sp v = true := by
      intro k v hv
      rw [noCloseDue_config env a _ hcfg]
      have hk : k ∈ a.ops.keys :=
        positionLoop_keys env coin fp sp a.ops a log k ((Ledger.mem_keys _ _).2 ⟨v, hv⟩)
      obtain ⟨e, he⟩ := (Ledger.mem_keys _ _).1 hk
      by_cases hn : noCloseDue env a coin fp sp e = true
      · have := ((hown k e he).1 hn).1 v
        have hv2 : (k, v) ∈ a.ops := this.1 hv
        rw [Ledger.value_unique a.ops hnd k v e hv2 he]
        exact hn
      · cases e with
        | none => simp [noCloseDue] at hn
        | some op =>
          have hd : closeDue env a coin fp sp op = true := by simpa [noCloseDue] using hn
          obtain ⟨fr, sr, h1, h2, _⟩ := hdue k op he hd
          have hfr : fr.Error = TaskError.TaskErrorSuccess := by
            have := hok (Event.order (Site.closing k) a.future
              (refreshPrices op fp sp).futureConfig fr) (by
                have : Event.order (Site.closing k) a.future
                    (refreshPrices op fp sp).futureConfig fr ∈ closeOrders ev k := by
                  rw [h1]; simp
                exact (List.mem_filter.1 this).1)
            simpa [Event.noFailure] using this
          have hsr : sr.Error = TaskError.TaskErrorSuccess := by
            have := hok (Event.order (Site.closing k) a.spot
              (refreshPrices op fp sp).spotConfig sr) (by
                have : Event.order (Site.closing k) a.spot
                    (refreshPrices op fp sp).spotConfig sr ∈ closeOrders ev k := by
                  rw [h1]; simp
                exact (List.mem_filter.1 this).1)
            simpa [Event.noFailure] using this
          exact absurd ((Ledger.mem_keys _ _).2 ⟨v, hv⟩) (h2 ⟨hfr, hsr⟩)
    have hsecond := positionLoop_idle env coin fp sp
      (positionLoop env coin fp sp a.ops a log).1.ops
      (positionLoop env coin fp sp a.ops a log).1
      (positionLoop env coin fp sp a.ops a log).2 hsurv
    constructor
    · rw [checkPosition_state, checkPosition_state, checkPosition_log, hsecond]
    · rw [checkPosition_log, checkPosition_state, checkPosition_log, hsecond]

theorem checkPosition_frame (env : Env) (a : IAnalyzer) (coin : String) (fp sp : ℚ)
    (log : List Event) :
    (checkPosition env a coin fp sp log).1.config = a.config
    ∧ (checkPosition env a coin fp sp log).1.future = a.future
    ∧ (checkPosition env a coin fp sp log).1.spot = a.spot
    ∧ ((checkPosition env a coin fp sp log).1.status = a.status
        ∨ (checkPosition env a coin fp sp log).1.status = StatusType.StatusError)
    ∧ ∃ ev, (checkPosition env a coin fp sp log).2.1 = log ++ ev
        ∧ ∀ x ∈ ev, Event.isPlaceOrders x = false := by
  rw [checkPosition_state, checkPosition_log]
  obtain ⟨h1, h2, h3, _, _, _, _, h8⟩ := positionLoop_frame env coin fp sp a.ops a log
  obtain ⟨ev, hev, hc⟩ := positionLoop_log env coin fp sp a.ops a log
  refine ⟨h1, h2, h3, h8, ev, hev, ?_⟩
  intro x hx
  obtain ⟨k, _, hk⟩ := hc x hx
  cases x with
  | order _ _ _ _ => rfl
  | publish _ _ _ _ _ => rfl
  | placeOrders _ _ _ _ => simp [Event.isCloseOf] at hk

theorem wsPublish_log (a : IAnalyzer) (topic coin : String) (f s d : ℚ) (log : List Event) :
    ∃ ev, wsPublish a topic coin f s d log = log ++ ev
      ∧ ∀ x ∈ ev, Event.isPlaceOrders x = false := by
  unfold wsPublish
  split
  · exact ⟨_, rfl, by simp [Event.isPlaceOrders]⟩
  · exact ⟨[], by simp, by simp⟩

theorem placeOrdersByQuantity_eq (env : Env) (a : IAnalyzer) (future : Option ExchangeId)
    (futureConfig : TradeConfig) (spot : Option ExchangeId) (spotConfig : TradeConfig)
    (log : List Event) :
    placeOrdersByQuantity env a future futureConfig spot spotConfig log = (a, log) := by
  simp [placeOrdersByQuantity]

theorem watchAsset_nil_exchange (env : Env) (key : String) (a : IAnalyzer) (log : List Event)
    (h : a.future = none ∨ a.spot = none) :
    watchAsset env key a log = Outcome.crashed a log := by
  unfold watchAsset
  rcases h with h | h
  · simp [h]
  · cases hf : a.future <;> simp [h]

theorem watchAsset_nil_ticker (env : Env) (key : String) (a : IAnalyzer) (log : List Event)
    (fe se : ExchangeId) (hf : a.future = some fe) (hs : a.spot = some se)
    (h : env.GetTickerValue fe (key ++ "/usdt" ++ "future") = none
      ∨ env.GetTickerValue se (key ++ "/usdt" ++ "spot") = none) :
    watchAsset env key a log = Outcome.crashed a log := by
  unfold watchAsset
  rcases h with h | h
  · simp [hf, hs, h]
  · cases hv : env.GetTickerValue fe (key ++ "/usdt" ++ "future") <;> simp [hf, hs, h, hv]

theorem watchAsset_run (env : Env) (key : String) (a : IAnalyzer) (log : List Event)
    (fe se : ExchangeId) (f s : ℚ) (hf : a.future = some fe) (hs : a.spot = some se)
    (hvf : env.GetTickerValue fe (key ++ "/usdt" ++ "future") = some ⟨f⟩)
    (hvc : env.GetTickerValue se (key ++ "/usdt" ++ "spot") = some ⟨s⟩) :
    watchAsset env key a log =
      if (checkPosition env a (key ++ "/usdt") f s
          (wsPublish a "okexdiff" (key ++ "/usdt") f s (spread f s) log)).2.2 = true then
        Outcome.returned
          (checkPosition env a (key ++ "/usdt") f s
            (wsPublish a "okexdiff" (key ++ "/usdt") f s (spread f s) log)).1
          (checkPosition env a (key ++ "/usdt") f s
            (wsPublish a "okexdiff" (key ++ "/usdt") f s (spread f s) log)).2.1
      else if |spread f s| > (areaAt a.config.Area (key ++ "/usdt")).Open then
        Outcome.returned
          (checkPosition env a (key ++ "/usdt") f s
            (wsPublish a "okexdiff" (key ++ "/usdt") f s (spread f s) log)).1
          ((checkPosition env a (key ++ "/usdt") f s
            (wsPublish a "okexdiff" (key ++ "/usdt") f s (spread f s) log)).2.1 ++
            [Event.placeOrders (some fe)
              { Batch := env.GetRandomHexString (checkPosition env a (key ++ "/usdt") f s
                  (wsPublish a "okexdiff" (key ++ "/usdt") f s (spread f s) log)).2.1,
                Coin := key ++ "/usdt",
                Typ := if f > s then TradeType.TradeTypeOpenShort
                       else TradeType.TradeTypeOpenLong,
                Price := f, Amount := 5, Limit := a.config.LimitOpen }
              (some se)
              { Batch := env.GetRandomHexString (checkPosition env a (key ++ "/usdt") f s
                  (wsPublish a "okexdiff" (key ++ "/usdt") f s (spread f s) log)).2.1,
                Coin := key ++ "/usdt",
                Typ := if f > s then TradeType.TradeTypeBuy else TradeType.TradeTypeSell,
                Price := s, Amount := 50 / s, Limit := a.config.LimitOpen }])
      else
        Outcome.returned
          (checkPosition env a (key ++ "/usdt") f s
            (wsPublish a "okexdiff" (key ++ "/usdt") f s (spread f s) log)).1
          (checkPosition env a (key ++ "/usdt") f s
            (wsPublish a "okexdiff" (key ++ "/usdt") f s (spread f s) log)).2.1 := by
  obtain ⟨c1, c2, c3, _, _⟩ := checkPosition_frame env a (key ++ "/usdt") f s
    (wsPublish a "okexdiff" (key ++ "/usdt") f s ((f - s) * 100 / s) log)
  unfold watchAsset spread
  simp only [hf, hs, hvf, hvc, placeOrdersByQuantity_eq, Option.isSome_some, and_self, if_true,
    c1, c2, c3]
  split_ifs <;> rfl

theorem watchAsset_spec (env : Env) (key : String) (a : IAnalyzer) (log : List Event) :
    (watchAsset env key a log).state.config = a.config
    ∧ (watchAsset env key a log).state.future = a.future
    ∧ (watchAsset env key a log).state.spot = a.spot
    ∧ ((watchAsset env key a log).state.status = a.status
        ∨ (watchAsset env key a log).state.status = StatusType.StatusError)
    ∧ ∃ ev, (watchAsset env key a log).log = log ++ ev
        ∧ ∀ fx fc sx sc, Event.placeOrders fx fc sx sc ∈ ev →
          ∃ (f s : ℚ) (fe se : ExchangeId),
            a.future = some fe ∧ a.spot = some se
            ∧ env.GetTickerValue fe (key ++ "/usdt" ++ "future") = some ⟨f⟩
            ∧ env.GetTickerValue se (key ++ "/usdt" ++ "spot") = some ⟨s⟩
            ∧ fx = some fe ∧ sx = some se
            ∧ fc = { Batch := fc.Batch, Coin := key ++ "/usdt",
                     Typ := if f > s then TradeType.TradeTypeOpenShort
                            else TradeType.TradeTypeOpenLong,
                     Price := f, Amount := 5, Limit := a.config.LimitOpen }
            ∧ sc = { Batch := fc.Batch, Coin := key ++ "/usdt",
                     Typ := if f > s then TradeType.TradeTypeBuy else TradeType.TradeTypeSell,
                     Price := s, Amount := 50 / s, Limit := a.config.LimitOpen } := by
  have hcrash : watchAsset env key a log = Outcome.crashed a log →
      (watchAsset env key a log).state.config = a.config
      ∧ (watchAsset env key a log).state.future = a.future
      ∧ (watchAsset env key a log).state.spot = a.spot
      ∧ ((watchAsset env key a log).state.status = a.status
          ∨ (watchAsset env key a log).state.status = StatusType.StatusError)
      ∧ ∃ ev, (watchAsset env key a log).log = log ++ ev
          ∧ ∀ fx fc sx sc, Event.placeOrders fx fc sx sc ∈ ev →
            ∃ (f s : ℚ) (fe se : ExchangeId),
              a.future = some fe ∧ a.spot = some se
              ∧ env.GetTickerValue fe (key ++ "/usdt" ++ "future") = some ⟨f⟩
              ∧ env.GetTickerValue se (key ++ "/usdt" ++ "spot") = some ⟨s⟩
              ∧ fx = some fe ∧ sx = some se
              ∧ fc = { Batch := fc.Batch, Coin := key ++ "/usdt",
                       Typ := if f > s then TradeType.TradeTypeOpenShort
                              else TradeType.TradeTypeOpenLong,
                       Price := f, Amount := 5, Limit := a.config.LimitOpen }
              ∧ sc = { Batch := fc.Batch, Coin := key ++ "/usdt",
                       Typ := if f > s then TradeType.TradeTypeBuy else TradeType.TradeTypeSell,
                       Price := s, Amount := 50 / s, Limit := a.config.LimitOpen } := by
    intro h
    rw [h]
    exact ⟨rfl, rfl, rfl, Or.inl rfl, [], by simp [Outcome.log], by simp⟩
  rcases Option.eq_none_or_eq_some a.future with hf | ⟨fe, hf⟩
  · exact hcrash (watchAsset_nil_exchange env key a log (Or.inl hf))
  rcases Option.eq_none_or_eq_some a.spot with hs | ⟨se, hs⟩
  · exact hcrash (watchAsset_nil_exchange env key a log (Or.inr hs))
  rcases Option.eq_none_or_eq_some (env.GetTickerValue fe (key ++ "/usdt" ++ "future"))
    with hvf | ⟨vf, hvf⟩
  · exact hcrash (watchAsset_nil_ticker env key a log fe se hf hs (Or.inl hvf))
  rcases Option.eq_none_or_eq_some (env.GetTickerValue se (key ++ "/usdt" ++ "spot"))
    with hvc | ⟨vc, hvc⟩
  · exact hcrash (watchAsset_nil_ticker env key a log fe se hf hs (Or.inr hvc))
  obtain ⟨ev0, hev0, hno0⟩ := wsPublish_log a "okexdiff" (key ++ "/usdt") vf.Last vc.Last
    (spread vf.Last vc.Last) log
  obtain ⟨c1, c2, c3, c4, ev1, hev1, hno1⟩ := checkPosition_frame env a (key ++ "/usdt")
    vf.Last vc.Last (wsPublish a "okexdiff" (key ++ "/usdt") vf.Last vc.Last
      (spread vf.Last vc.Last) log)
  have hquiet : ∀ fx fc sx sc, Event.placeOrders fx fc sx sc ∉ ev0 ++ ev1 := by
    intro fx fc sx sc hm
    rcases List.mem_append.1 hm with hm | hm
    · simpa [Event.isPlaceOrders] using hno0 _ hm
    · simpa [Event.isPlaceOrders] using hno1 _ hm
  have hlog : (checkPosition env a (key ++ "/usdt") vf.Last vc.Last
      (wsPublish a "okexdiff" (key ++ "/usdt") vf.Last vc.Last (spread vf.Last vc.Last) log)).2.1
      = log ++ (ev0 ++ ev1) := by
    rw [hev1, hev0, List.append_assoc]
  rw [watchAsset_run env key a log fe se vf.Last vc.Last hf hs hvf hvc]
  by_cases h1 : (checkPosition env a (key ++ "/usdt") vf.Last vc.Last
      (wsPublish a "okexdiff" (key ++ "/usdt") vf.Last vc.Last
        (spread vf.Last vc.Last) log)).2.2 = true
  · rw [if_pos h1]
    exact ⟨c1, c2, c3, c4, ev0 ++ ev1, hlog,
      fun fx fc sx sc hm => absurd hm (hquiet fx fc sx sc)⟩
  rw [if_neg h1]
  by_cases h2 : |spread vf.Last vc.Last| > (areaAt a.config.Area (key ++ "/usdt")).Open
  · rw [if_pos h2]
    refine ⟨c1, c2, c3, c4, ev0 ++ ev1 ++ [_], by
      show _ ++ [_] = _
      rw [hlog, List.append_assoc], ?_⟩
    intro fx fc sx sc hm
    rcases List.mem_append.1 hm with hm | hm
    · exact absurd hm (hquiet fx fc sx sc)
    · simp only [List.mem_singleton, Event.placeOrders.injEq] at hm
      obtain ⟨m1, m2, m3, m4⟩ := hm
      refine ⟨vf.Last, vc.Last, fe, se, hf, hs, hvf, hvc, m1, m3, ?_, ?_⟩
      · rw [m2]
      · rw [m4, m2]
  · rw [if_neg h2]
    exact ⟨c1, c2, c3, c4, ev0 ++ ev1, hlog,
      fun fx fc sx sc hm => absurd hm (hquiet fx fc sx sc)⟩

theorem watchLoop_spec (env : Env) (keys : List String) :
    ∀ (a : IAnalyzer) (log : List Event),
    (watchLoop env keys a log).state.config = a.config
    ∧ (watchLoop env keys a log).state.future = a.future
    ∧ (watchLoop env keys a log).state.spot = a.spot
    ∧ ((watchLoop env keys a log).state.status = a.status
        ∨ (watchLoop env keys a log).state.status = StatusType.StatusError)
    ∧ ∃ ev, (watchLoop env keys a log).log = log ++ ev
        ∧ ∀ fx fc sx sc, Event.placeOrders fx fc sx sc ∈ ev →
          ∃ (key : String) (f s : ℚ) (fe se : ExchangeId),
            key ∈ keys ∧ a.future = some fe ∧ a.spot = some se
            ∧ env.GetTickerValue fe (key ++ "/usdt" ++ "future") = some ⟨f⟩
            ∧ env.GetTickerValue se (key ++ "/usdt" ++ "spot") = some ⟨s⟩
            ∧ fx = some fe ∧ sx = some se
            ∧ fc = { Batch := fc.Batch, Coin := key ++ "/usdt",
                     Typ := if f > s then TradeType.TradeTypeOpenShort
                            else TradeType.TradeTypeOpenLong,
                     Price := f, Amount := 5, Limit := a.config.LimitOpen }
            ∧ sc = { Batch := fc.Batch, Coin := key ++ "/usdt",
                     Typ := if f > s then TradeType.TradeTypeBuy else TradeType.TradeTypeSell,
                     Price := s, Amount := 50 / s, Limit := a.config.LimitOpen } := by
  induction keys with
  | nil =>
    intro a log
    exact ⟨rfl, rfl, rfl, Or.inl rfl, [], by simp [watchLoop, Outcome.log], by simp⟩
  | cons key rest ih =>
    intro a log
    obtain ⟨s1, s2, s3, s4, ev0, hev0, hreq0⟩ := watchAsset_spec env key a log
    have hhead : ∀ fx fc sx sc, Event.placeOrders fx fc sx sc ∈ ev0 →
        ∃ (k : String) (f s : ℚ) (fe se : ExchangeId),
          k ∈ key :: rest ∧ a.future = some fe ∧ a.spot = some se
          ∧ env.GetTickerValue fe (k ++ "/usdt" ++ "future") = some ⟨f⟩
          ∧ env.GetTickerValue se (k ++ "/usdt" ++ "spot") = some ⟨s⟩
          ∧ fx = some fe ∧ sx = some se
          ∧ fc = { Batch := fc.Batch, Coin := k ++ "/usdt",
                   Typ := if f > s then TradeType.TradeTypeOpenShort
                          else TradeType.TradeTypeOpenLong,
                   Price := f, Amount := 5, Limit := a.config.LimitOpen }
          ∧ sc = { Batch := fc.Batch, Coin := k ++ "/usdt",
                   Typ := if f > s then TradeType.TradeTypeBuy else TradeType.TradeTypeSell,
                   Price := s, Amount := 50 / s, Limit := a.config.LimitOpen } := by
      intro fx fc sx sc hm
      obtain ⟨f, s, fe, se, h⟩ := hreq0 fx fc sx sc hm
      exact ⟨key, f, s, fe, se, List.mem_cons_self _ _, h⟩
    cases hstep : watchAsset env key a log with
    | crashed a1 log1 =>
      rw [hstep] at s1 s2 s3 s4 hev0
      simp only [watchLoop, hstep]
      exact ⟨s1, s2, s3, s4, ev0, hev0, hhead⟩
    | returned a1 log1 =>
      rw [hstep] at s1 s2 s3 s4 hev0
      simp only [Outcome.state, Outcome.log] at s1 s2 s3 s4 hev0
      obtain ⟨t1, t2, t3, t4, ev1, hev1, hreq1⟩ := ih a1 log1
      simp only [watchLoop, hstep]
      refine ⟨t1.trans s1, t2.trans s2, t3.trans s3, ?_, ev0 ++ ev1,
        by rw [hev1, hev0, List.append_assoc], ?_⟩
      · rcases t4 with t4 | t4
        · rcases s4 with s4 | s4
          · exact Or.inl (t4.trans s4)
          · exact Or.inr (t4.trans s4)
        · exact Or.inr t4
      · intro fx fc sx sc hm
        rcases List.mem_append.1 hm with hm | hm
        · exact hhead fx fc sx sc hm
        · obtain ⟨k, f, s, fe, se, hk, g1, g2, g⟩ := hreq1 fx fc sx sc hm
          rw [s2] at g1
          rw [s3] at g2
          rw [s1] at g
          exact ⟨k, f, s, fe, se, List.mem_cons_of_mem _ hk, g1, g2, g⟩

/-! ## `Start` -/

/-- C1 (counterexample). With status None and a configuration document that
does not parse, `Start` returns an error and leaves the status at Processing:
the state after the failed call is not the state before it. -/
theorem Start_parse_failure_keeps_processing :
    idleAnalyzer.status = StatusType.StatusNone
    ∧ (Start calmEnv idleAnalyzer "" "" "\x7b").2
        = some TaskError.TaskInvalidConfig
    ∧ (Start calmEnv idleAnalyzer "" "" "\x7b").1.status
        = StatusType.StatusProcessing
    ∧ (Start calmEnv idleAnalyzer "" "" "\x7b").1
        ≠ idleAnalyzer := by
  decide

/-- C1 (amended). When `Start` returns an error, one of three cases holds.
The status was not None: the state is unchanged. The status was None and the
non-empty document did not parse: the state is the old one with status
Processing. The status was None and a database did not connect: the state is
the old one with status Processing, the parsed (or default) configuration, an
empty ledger and the handle(s) of the database(s) tried. -/
theorem Start_error_state (env : Env) (a : IAnalyzer) (api secret configJSON : String)
    (h : (Start env a api secret configJSON).2 ≠ none) :
    (a.status ≠ StatusType.StatusNone
      ∧ Start env a api secret configJSON = (a, some TaskError.TaskErrorStatus))
    ∨ (a.status = StatusType.StatusNone ∧ configJSON ≠ "" ∧ env.jsonUnmarshal configJSON = none
      ∧ Start env a api secret configJSON =
          ({ a with status := StatusType.StatusProcessing }, some TaskError.TaskInvalidConfig))
    ∨ (a.status = StatusType.StatusNone
      ∧ ∃ c : AnalyzerConfig,
          ((configJSON = "" ∧ c = defaultConfig)
            ∨ (configJSON ≠ "" ∧ env.jsonUnmarshal configJSON = some c))
          ∧ ((env.tradeDBConnect = false
              ∧ Start env a api secret configJSON =
                  ({ a with status := StatusType.StatusProcessing, config := c, ops := [],
                            tradeDB := some "DiffOKExFutureSpotTrade" },
                   some TaskError.TaskLostMongodb))
            ∨ (env.tradeDBConnect = true ∧ env.orderDBConnect = false
              ∧ Start env a api secret configJSON =
                  ({ a with status := StatusType.StatusProcessing, config := c, ops := [],
                            tradeDB := some "DiffOKExFutureSpotTrade",
                            orderDB := some "DiffOKExFutureSpotOrder" },
                   some TaskError.TaskLostMongodb)))) := by
  by_cases hs : a.status = StatusType.StatusNone
  · right
    by_cases hc : configJSON = ""
    · right
      refine ⟨hs, defaultConfig, Or.inl ⟨hc, rfl⟩, ?_⟩
      cases ht : env.tradeDBConnect
      · left
        simp [Start, hs, hc, ht]
      · right
        cases ho : env.orderDBConnect
        · simp [Start, hs, hc, ht, ho]
        · simp [Start, hs, hc, ht, ho] at h
    · cases hp : env.jsonUnmarshal configJSON with
      | none =>
        left
        exact ⟨hs, hc, rfl, by simp [Start, hs, hc, hp]⟩
      | some c =>
        right
        refine ⟨hs, c, Or.inr ⟨hc, rfl⟩, ?_⟩
        cases ht : env.tradeDBConnect
        · left
          simp [Start, hs, hc, hp, ht]
        · right
          cases ho : env.orderDBConnect
          · simp [Start, hs, hc, hp, ht, ho]
          · simp [Start, hs, hc, hp, ht, ho] at h
  · left
    exact ⟨hs, by simp [Start, hs]⟩

/-- C1 (witness). The amended statement at a start whose databases are down. -/
theorem Start_error_state_witness :
    (idleAnalyzer.status ≠ StatusType.StatusNone
      ∧ Start dbDownEnv idleAnalyzer "k" "s" ""
          = (idleAnalyzer, some TaskError.TaskErrorStatus))
    ∨ (idleAnalyzer.status = StatusType.StatusNone ∧ "" ≠ ""
      ∧ dbDownEnv.jsonUnmarshal "" = none
      ∧ Start dbDownEnv idleAnalyzer "k" "s" "" =
          ({ idleAnalyzer with status := StatusType.StatusProcessing },
           some TaskError.TaskInvalidConfig))
    ∨ (idleAnalyzer.status = StatusType.StatusNone
      ∧ ∃ c : AnalyzerConfig,
          (("" = "" ∧ c = defaultConfig)
            ∨ ("" ≠ ""
              ∧ dbDownEnv.jsonUnmarshal "" = some c))
          ∧ ((dbDownEnv.tradeDBConnect = false
              ∧ Start dbDownEnv
                  idleAnalyzer "k" "s" "" =
                  ({ idleAnalyzer with
                      status := StatusType.StatusProcessing, config := c, ops := [],
                      tradeDB := some "DiffOKExFutureSpotTrade" },
                   some TaskError.TaskLostMongodb))
            ∨ (dbDownEnv.tradeDBConnect = true
              ∧ dbDownEnv.orderDBConnect = false
              ∧ Start dbDownEnv
                  idleAnalyzer "k" "s" "" =
                  ({ idleAnalyzer with
                      status := StatusType.StatusProcessing, config := c, ops := [],
                      tradeDB := some "DiffOKExFutureSpotTrade",
                      orderDB := some "DiffOKExFutureSpotOrder" },
                   some TaskError.TaskLostMongodb)))) :=
  Start_error_state dbDownEnv idleAnalyzer
    "k" "s" "" (by decide)

/-! ## `placeOrdersByQuantity` -/

/-- C2 (counterexample). Status Processing, empty ledger, an environment in
which both legs would succeed: `placeOrdersByQuantity` submits no order and the
ledger and `opIndex` stay as they were, so no `OperationItem` is stored. -/
theorem placeOrdersByQuantity_records_nothing :
    (runningAnalyzer [] 0).status = StatusType.StatusProcessing
    ∧ (calmEnv.ProcessTradeRoutine []
        (some ExchangeId.okexFuture) btcFutureLeg).Error = TaskError.TaskErrorSuccess
    ∧ (calmEnv.ProcessTradeRoutine []
        (some ExchangeId.okexSpot) btcSpotLeg).Error = TaskError.TaskErrorSuccess
    ∧ (placeOrdersByQuantity calmEnv
        (runningAnalyzer [] 0) (some ExchangeId.okexFuture) btcFutureLeg
        (some ExchangeId.okexSpot) btcSpotLeg []).1.ops = []
    ∧ (placeOrdersByQuantity calmEnv
        (runningAnalyzer [] 0) (some ExchangeId.okexFuture) btcFutureLeg
        (some ExchangeId.okexSpot) btcSpotLeg []).1.opIndex = 0
    ∧ (placeOrdersByQuantity calmEnv
        (runningAnalyzer [] 0) (some ExchangeId.okexFuture) btcFutureLeg
        (some ExchangeId.okexSpot) btcSpotLeg []).2 = [] := by
  decide

/-- C2 (amended). `placeOrdersByQuantity` returns at its guard: no order is
submitted and the analyzer is unchanged. The code behind the guard, run with
status Processing and both legs reporting success, submits the two legs, stores at
the old `opIndex` one item holding the two configs with their sides passed through
`RevertTradeType` and the spot amount set to `trunc(Balance * 100) / 100` of the
spot result, and sets `opIndex` to `opIndex + 1` modulo `2 ^ 64`; when the old
`opIndex` is not a key of the ledger the item is appended to the old ledger. -/
theorem placeOrdersByQuantity_guard_and_open (env : Env) (a : IAnalyzer)
    (future spot : Option ExchangeId) (futureConfig spotConfig : TradeConfig) (log : List Event)
    (hst : a.status = StatusType.StatusProcessing)
    (hf : (env.ProcessTradeRoutine log future futureConfig).Error = TaskError.TaskErrorSuccess)
    (hs : (env.ProcessTradeRoutine
        (log ++ [Event.order Site.opening future futureConfig
          (env.ProcessTradeRoutine log future futureConfig)])
        spot spotConfig).Error = TaskError.TaskErrorSuccess) :
    placeOrdersByQuantity env a future futureConfig spot spotConfig log = (a, log)
    ∧ placeOrdersBody env a future futureConfig spot spotConfig log =
        ({ a with
            ops := a.ops.set a.opIndex (some
              { futureConfig :=
                  { futureConfig with Typ := env.RevertTradeType futureConfig.Typ }
                spotConfig :=
                  { spotConfig with
                      Typ := env.RevertTradeType spotConfig.Typ
                      Amount := mathTrunc ((env.ProcessTradeRoutine
                        (log ++ [Event.order Site.opening future futureConfig
                          (env.ProcessTradeRoutine log future futureConfig)])
                        spot spotConfig).Balance * 100) / 100 } })
            opIndex := (a.opIndex + 1) % 2 ^ 64 },
         log ++ [Event.order Site.opening future futureConfig
                  (env.ProcessTradeRoutine log future futureConfig),
                 Event.order Site.opening spot spotConfig
                  (env.ProcessTradeRoutine
                    (log ++ [Event.order Site.opening future futureConfig
                      (env.ProcessTradeRoutine log future futureConfig)])
                    spot spotConfig)])
    ∧ (a.opIndex ∉ a.ops.keys →
        (placeOrdersBody env a future futureConfig spot spotConfig log).1.ops =
          a.ops ++ [(a.opIndex, some
            { futureConfig :=
                { futureConfig with Typ := env.RevertTradeType futureConfig.Typ }
              spotConfig :=
                { spotConfig with
                    Typ := env.RevertTradeType spotConfig.Typ
                    Amount := mathTrunc ((env.ProcessTradeRoutine
                      (log ++ [Event.order Site.opening future futureConfig
                        (env.ProcessTradeRoutine log future futureConfig)])
                      spot spotConfig).Balance * 100) / 100 } })]) := by
  refine ⟨placeOrdersByQuantity_eq env a future futureConfig spot spotConfig log, ?_, ?_⟩
  · simp [placeOrdersBody, hst, hf, hs, uintBits]
  · intro hk
    simp [placeOrdersBody, hst, hf, hs, Ledger.set, hk]

/-- C2 (witness). The amended statement for the btc open at 102 / 100. -/
theorem placeOrdersByQuantity_guard_and_open_witness :
    placeOrdersByQuantity calmEnv
        (runningAnalyzer [] 0) (some ExchangeId.okexFuture) btcFutureLeg
        (some ExchangeId.okexSpot) btcSpotLeg [] = (runningAnalyzer [] 0, [])
    ∧ (placeOrdersBody calmEnv
        (runningAnalyzer [] 0) (some ExchangeId.okexFuture) btcFutureLeg
        (some ExchangeId.okexSpot) btcSpotLeg []).1.ops = [] ++ [(0, some btcPosition)] :=
  ⟨(placeOrdersByQuantity_guard_and_open calmEnv
      (runningAnalyzer [] 0) (some ExchangeId.okexFuture) (some ExchangeId.okexSpot)
      btcFutureLeg btcSpotLeg [] (by decide) (by decide) (by decide)).1,
   ((placeOrdersByQuantity_guard_and_open calmEnv
      (runningAnalyzer [] 0) (some ExchangeId.okexFuture) (some ExchangeId.okexSpot)
      btcFutureLeg btcSpotLeg [] (by decide) (by decide) (by decide)).2.2 (by decide)).trans
      (by decide!)⟩

/-- C3 (counterexample). Status Processing, the future leg would succeed and
the spot leg would fail: `placeOrdersByQuantity` submits no order at all, in
particular no compensating order. -/
theorem placeOrdersByQuantity_no_unwind :
    (runningAnalyzer [] 0).status = StatusType.StatusProcessing
    ∧ (spotDownEnv.ProcessTradeRoutine []
        (some ExchangeId.okexFuture) btcFutureLeg).Error = TaskError.TaskErrorSuccess
    ∧ (spotDownEnv.ProcessTradeRoutine []
        (some ExchangeId.okexSpot) btcSpotLeg).Error ≠ TaskError.TaskErrorSuccess
    ∧ (placeOrdersByQuantity spotDownEnv
        (runningAnalyzer [] 0) (some ExchangeId.okexFuture) btcFutureLeg
        (some ExchangeId.okexSpot) btcSpotLeg []).2 = [] := by
  decide

/-- C3 (amended). `placeOrdersByQuantity` returns at its guard: no order is
submitted and the analyzer is unchanged. The code behind the guard, run with
status Processing when exactly one of the two legs reports success, submits
exactly one further order after the two legs, leaves the ledger and `opIndex`
unchanged, keeps the status Processing when that order succeeds and sets it to
Error when it fails. -/
theorem placeOrdersByQuantity_guard_and_unwind (env : Env) (a : IAnalyzer)
    (future spot : Option ExchangeId) (futureConfig spotConfig : TradeConfig) (log : List Event)
    (hst : a.status = StatusType.StatusProcessing)
    (hone :
      ((env.ProcessTradeRoutine log future futureConfig).Error = TaskError.TaskErrorSuccess
        ∧ (env.ProcessTradeRoutine
            (log ++ [Event.order Site.opening future futureConfig
              (env.ProcessTradeRoutine log future futureConfig)])
            spot spotConfig).Error ≠ TaskError.TaskErrorSuccess)
      ∨ ((env.ProcessTradeRoutine log future futureConfig).Error ≠ TaskError.TaskErrorSuccess
        ∧ (env.ProcessTradeRoutine
            (log ++ [Event.order Site.opening future futureConfig
              (env.ProcessTradeRoutine log future futureConfig)])
            spot spotConfig).Error = TaskError.TaskErrorSuccess)) :
    placeOrdersByQuantity env a future futureConfig spot spotConfig log = (a, log)
    ∧ ∃ (x : Option ExchangeId) (c : TradeConfig) (r : TradeResult),
        (placeOrdersBody env a future futureConfig spot spotConfig log).2 =
          log ++ [Event.order Site.opening future futureConfig
                    (env.ProcessTradeRoutine log future futureConfig),
                  Event.order Site.opening spot spotConfig
                    (env.ProcessTradeRoutine
                      (log ++ [Event.order Site.opening future futureConfig
                        (env.ProcessTradeRoutine log future futureConfig)])
                      spot spotConfig),
                  Event.order Site.unwind x c r]
        ∧ (placeOrdersBody env a future futureConfig spot spotConfig log).1.ops = a.ops
        ∧ (placeOrdersBody env a future futureConfig spot spotConfig log).1.opIndex = a.opIndex
        ∧ (r.Error = TaskError.TaskErrorSuccess →
            (placeOrdersBody env a future futureConfig spot spotConfig log).1.status
              = StatusType.StatusProcessing)
        ∧ (r.Error ≠ TaskError.TaskErrorSuccess →
            (placeOrdersBody env a future futureConfig spot spotConfig log).1.status
              = StatusType.StatusError) := by
  refine ⟨placeOrdersByQuantity_eq env a future futureConfig spot spotConfig log, ?_⟩
  generalize hfr : env.ProcessTradeRoutine log future futureConfig = fr at hone ⊢
  generalize hsr : env.ProcessTradeRoutine
    (log ++ [Event.order Site.opening future futureConfig fr]) spot spotConfig = sr at hone ⊢
  have hbody : ∀ (c : TradeConfig),
      (c = { spotConfig with
              Typ := env.RevertTradeType spotConfig.Typ
              Amount := mathTrunc (sr.Balance * 100) / 100 }
        ∧ fr.Error = TaskError.TaskErrorSuccess ∧ sr.Error ≠ TaskError.TaskErrorSuccess)
      ∨ (c = { futureConfig with Typ := env.RevertTradeType futureConfig.Typ }
        ∧ fr.Error ≠ TaskError.TaskErrorSuccess ∧ sr.Error = TaskError.TaskErrorSuccess) →
      placeOrdersBody env a future futureConfig spot spotConfig log =
        (if (env.ProcessTradeRoutine
              (log ++ [Event.order Site.opening future futureConfig fr] ++
                [Event.order Site.opening spot spotConfig sr]) spot c).Error
              ≠ TaskError.TaskErrorSuccess then
            { a with status := StatusType.StatusError }
          else a,
         log ++ [Event.order Site.opening future futureConfig fr] ++
           [Event.order Site.opening spot spotConfig sr] ++
           [Event.order Site.unwind spot c
            (env.ProcessTradeRoutine
              (log ++ [Event.order Site.opening future futureConfig fr] ++
                [Event.order Site.opening spot spotConfig sr]) spot c)]) := by
    intro c hc
    rcases hc with ⟨hc, h1, h2⟩ | ⟨hc, h1, h2⟩
    · subst hc
      simp only [placeOrdersBody, hst, hfr, hsr, h1, h2]
      split_ifs <;> simp_all
    · subst hc
      simp only [placeOrdersBody, hst, hfr, hsr, h1, h2]
      split_ifs <;> simp_all
  have hfinish : ∀ (c : TradeConfig),
      placeOrdersBody env a future futureConfig spot spotConfig log =
        (if (env.ProcessTradeRoutine
              (log ++ [Event.order Site.opening future futureConfig fr] ++
                [Event.order Site.opening spot spotConfig sr]) spot c).Error
              ≠ TaskError.TaskErrorSuccess then
            { a with status := StatusType.StatusError }
          else a,
         log ++ [Event.order Site.opening future futureConfig fr] ++
           [Event.order Site.opening spot spotConfig sr] ++
           [Event.order Site.unwind spot c
            (env.ProcessTradeRoutine
              (log ++ [Event.order Site.opening future futureConfig fr] ++
                [Event.order Site.opening spot spotConfig sr]) spot c)]) →
      ∃ (x : Option ExchangeId) (c : TradeConfig) (r : TradeResult),
        (placeOrdersBody env a future futureConfig spot spotConfig log).2 =
          log ++ [Event.order Site.opening future futureConfig fr,
                  Event.order Site.opening spot spotConfig sr,
                  Event.order Site.unwind x c r]
        ∧ (placeOrdersBody env a future futureConfig spot spotConfig log).1.ops = a.ops
        ∧ (placeOrdersBody env a future futureConfig spot spotConfig log).1.opIndex = a.opIndex
        ∧ (r.Error = TaskError.TaskErrorSuccess →
            (placeOrdersBody env a future futureConfig spot spotConfig log).1.status
              = StatusType.StatusProcessing)
        ∧ (r.Error ≠ TaskError.TaskErrorSuccess →
            (placeOrdersBody env a future futureConfig spot spotConfig log).1.status
              = StatusType.StatusError) := by
    intro c hc
    refine ⟨spot, c, env.ProcessTradeRoutine
      (log ++ [Event.order Site.opening future futureConfig fr] ++
        [Event.order Site.opening spot spotConfig sr]) spot c, ?_⟩
    rw [hc]
    refine ⟨by simp, ?_, ?_, ?_, ?_⟩
    · split_ifs <;> rfl
    · split_ifs <;> rfl
    · intro hr
      rw [if_neg (not_not.2 hr)]
      exact hst
    · intro hr
      rw [if_pos hr]
  rcases hone with ⟨hf, hs⟩ | ⟨hf, hs⟩
  · exact hfinish _ (hbody _ (Or.inl ⟨rfl, hf, hs⟩))
  · exact hfinish _ (hbody _ (Or.inr ⟨rfl, hf, hs⟩))

/-- C3 (witness). The amended statement when the future leg succeeds and the
spot leg fails. -/
theorem placeOrdersByQuantity_guard_and_unwind_witness :
    placeOrdersByQuantity spotDownEnv (runningAnalyzer [] 0) (some ExchangeId.okexFuture)
        btcFutureLeg (some ExchangeId.okexSpot) btcSpotLeg [] = (runningAnalyzer [] 0, [])
    ∧ ∃ (x : Option ExchangeId) (c : TradeConfig) (r : TradeResult),
        (placeOrdersBody spotDownEnv (runningAnalyzer [] 0) (some ExchangeId.okexFuture)
            btcFutureLeg (some ExchangeId.okexSpot) btcSpotLeg []).2 =
          [] ++ [Event.order Site.opening (some ExchangeId.okexFuture) btcFutureLeg
                    (spotDownEnv.ProcessTradeRoutine [] (some ExchangeId.okexFuture) btcFutureLeg),
                  Event.order Site.opening (some ExchangeId.okexSpot) btcSpotLeg
                    (spotDownEnv.ProcessTradeRoutine
                      ([] ++ [Event.order Site.opening (some ExchangeId.okexFuture) btcFutureLeg
                        (spotDownEnv.ProcessTradeRoutine [] (some ExchangeId.okexFuture)
                          btcFutureLeg)])
                      (some ExchangeId.okexSpot) btcSpotLeg),
                  Event.order Site.unwind x c r]
        ∧ (placeOrdersBody spotDownEnv (runningAnalyzer [] 0) (some ExchangeId.okexFuture)
            btcFutureLeg (some ExchangeId.okexSpot) btcSpotLeg []).1.ops = []
        ∧ (placeOrdersBody spotDownEnv (runningAnalyzer [] 0) (some ExchangeId.okexFuture)
            btcFutureLeg (some ExchangeId.okexSpot) btcSpotLeg []).1.opIndex = 0
        ∧ (r.Error = TaskError.TaskErrorSuccess →
            (placeOrdersBody spotDownEnv (runningAnalyzer [] 0) (some ExchangeId.okexFuture)
              btcFutureLeg (some ExchangeId.okexSpot) btcSpotLeg []).1.status
              = StatusType.StatusProcessing)
        ∧ (r.Error ≠ TaskError.TaskErrorSuccess →
            (placeOrdersBody spotDownEnv (runningAnalyzer [] 0) (some ExchangeId.okexFuture)
              btcFutureLeg (some ExchangeId.okexSpot) btcSpotLeg []).1.status
              = StatusType.StatusError) :=
  placeOrdersByQuantity_guard_and_unwind spotDownEnv (runningAnalyzer [] 0)
    (some ExchangeId.okexFuture) (some ExchangeId.okexSpot) btcFutureLeg btcSpotLeg []
    (by decide) (Or.inl ⟨by decide, by decide⟩)

/-! ## `Watch` -/

/-- On an empty ledger the loop body of `Watch` for map key `key` calls
`placeOrdersByQuantity` exactly when the spread exceeds the threshold stored
under `key ++ "/usdt"`. -/
theorem watchAsset_empty_ledger (env : Env) (key : String) (a : IAnalyzer) (log : List Event)
    (fe se : ExchangeId) (f s : ℚ) (hf : a.future = some fe) (hs : a.spot = some se)
    (hvf : env.GetTickerValue fe (key ++ "/usdt" ++ "future") = some ⟨f⟩)
    (hvc : env.GetTickerValue se (key ++ "/usdt" ++ "spot") = some ⟨s⟩)
    (hempty : a.ops = []) :
    watchAsset env key a log =
      if |spread f s| > (areaAt a.config.Area (key ++ "/usdt")).Open then
        Outcome.returned a
          (wsPublish a "okexdiff" (key ++ "/usdt") f s (spread f s) log ++
            [Event.placeOrders (some fe)
              { Batch := env.GetRandomHexString
                  (wsPublish a "okexdiff" (key ++ "/usdt") f s (spread f s) log),
                Coin := key ++ "/usdt",
                Typ := if f > s then TradeType.TradeTypeOpenShort
                       else TradeType.TradeTypeOpenLong,
                Price := f, Amount := 5, Limit := a.config.LimitOpen }
              (some se)
              { Batch := env.GetRandomHexString
                  (wsPublish a "okexdiff" (key ++ "/usdt") f s (spread f s) log),
                Coin := key ++ "/usdt",
                Typ := if f > s then TradeType.TradeTypeBuy else TradeType.TradeTypeSell,
                Price := s, Amount := 50 / s, Limit := a.config.LimitOpen }])
      else
        Outcome.returned a (wsPublish a "okexdiff" (key ++ "/usdt") f s (spread f s) log) := by
  have hcp : ∀ l, checkPosition env a (key ++ "/usdt") f s l = (a, l, false) := by
    intro l
    simp [checkPosition, hempty]
  rw [watchAsset_run env key a log fe se f s hf hs hvf hvc]
  simp only [hcp]
  simp

/-- `Watch` panics as soon as the first asset it visits has a ticker that has
not arrived: nothing is published and no order is placed before the panic. -/
theorem Watch_nil_ticker (env : Env) (a : IAnalyzer) (log : List Event)
    (key : String) (area : TriggerArea) (rest : List (String × TriggerArea))
    (fe se : ExchangeId) (hkeys : a.config.Area = (key, area) :: rest)
    (hf : a.future = some fe) (hs : a.spot = some se)
    (h : env.GetTickerValue fe (key ++ "/usdt" ++ "future") = none
      ∨ env.GetTickerValue se (key ++ "/usdt" ++ "spot") = none) :
    Watch env a log = Outcome.crashed a log := by
  simp [Watch, hkeys, watchLoop, watchAsset_nil_ticker env key a log fe se hf hs h]

/-- C4 (the code at the failing input). Default configuration, both exchanges
connected, empty ledger, the btc future ticker not yet received: `Watch` does not
complete, it panics at the read of `valuefuture.Last` (line 256). -/
theorem Watch_absent_ticker_panics :
    (marketEnv none (some 100) (some 50) (some 50)).GetTickerValue ExchangeId.okexFuture
        "btc/usdtfuture" = none
    ∧ Watch (marketEnv none (some 100) (some 50) (some 50)) (runningAnalyzer [] 0) []
        = Outcome.crashed (runningAnalyzer [] 0) []
    ∧ (Watch (marketEnv none (some 100) (some 50) (some 50)) (runningAnalyzer [] 0) []).completed
        = false := by
  decide!

/-- C5 (the code at the failing input). Default configuration (btc Open = 1.6),
empty ledger, btc future 101 and spot 100: the spread 1 does not exceed the
threshold configured for btc, yet `Watch` calls `placeOrdersByQuantity` for
btc, because line 271 reads the threshold under the key "btc/usdt", which the
map does not hold. -/
theorem Watch_opens_below_threshold :
    (areaAt defaultConfig.Area "btc").Open = 1.6
    ∧ ¬ (|spread 101 100| > (areaAt defaultConfig.Area "btc").Open)
    ∧ (areaAt defaultConfig.Area "btc/usdt").Open = 0
    ∧ (Watch (marketEnv (some 101) (some 100) (some 50) (some 50))
        (runningAnalyzer [] 0) []).log.filter Event.isPlaceOrders =
        [Event.placeOrders (some ExchangeId.okexFuture)
          { Batch := "0123456789ab", Coin := "btc/usdt", Typ := TradeType.TradeTypeOpenShort,
            Price := 101, Amount := 5, Limit := 0.005 }
          (some ExchangeId.okexSpot)
          { Batch := "0123456789ab", Coin := "btc/usdt", Typ := TradeType.TradeTypeBuy,
            Price := 100, Amount := 50 / 100, Limit := 0.005 }] := by
  decide!

/-- C6 (the code at the failing input). Default configuration (btc Close = 0.5),
a btc position opened at future 102, now future 101.4 and spot 101 (spread about
0.396, below 0.5; ltc quoted at 100 / 100): `Watch` submits no order and the
ledger entry stays as it was, because line 450 reads the threshold under the key
"btc/usdt", which the map does not hold. -/
theorem Watch_no_close_below_threshold :
    |spread 101.4 101| < (areaAt defaultConfig.Area "btc").Close
    ∧ (areaAt defaultConfig.Area "btc/usdt").Close = 0
    ∧ (Watch (marketEnv (some 101.4) (some 101) (some 100) (some 100))
        (runningAnalyzer [(0, some btcPosition)] 1) []).state
        = runningAnalyzer [(0, some btcPosition)] 1
    ∧ (Watch (marketEnv (some 101.4) (some 101) (some 100) (some 100))
        (runningAnalyzer [(0, some btcPosition)] 1) []).log.filter Event.isOrder = [] := by
  decide!

/-- C7. Every call of `placeOrdersByQuantity` that `Watch` makes is for a key of
`config.Area` whose future and spot tickers show prices `f` and `s`; the future
leg has side OpenShort and the spot leg side Buy when `f > s`, otherwise
OpenLong and Sell; both legs carry the same batch id and the coin `key/usdt`;
the future leg has price `f` and amount 5, the spot leg price `s` and amount
`50 / s`; both have limit `config.LimitOpen`. -/
theorem Watch_open_request_shape (env : Env) (a : IAnalyzer) (log : List Event) :
    ∃ ev, (Watch env a log).log = log ++ ev
      ∧ ∀ fx fc sx sc, Event.placeOrders fx fc sx sc ∈ ev →
        ∃ (key : String) (f s : ℚ) (fe se : ExchangeId),
          key ∈ a.config.Area.map Prod.fst ∧ a.future = some fe ∧ a.spot = some se
          ∧ env.GetTickerValue fe (key ++ "/usdt" ++ "future") = some ⟨f⟩
          ∧ env.GetTickerValue se (key ++ "/usdt" ++ "spot") = some ⟨s⟩
          ∧ fx = some fe ∧ sx = some se
          ∧ fc = { Batch := fc.Batch, Coin := key ++ "/usdt",
                   Typ := if f > s then TradeType.TradeTypeOpenShort
                          else TradeType.TradeTypeOpenLong,
                   Price := f, Amount := 5, Limit := a.config.LimitOpen }
          ∧ sc = { Batch := fc.Batch, Coin := key ++ "/usdt",
                   Typ := if f > s then TradeType.TradeTypeBuy else TradeType.TradeTypeSell,
                   Price := s, Amount := 50 / s, Limit := a.config.LimitOpen } :=
  (watchLoop_spec env (a.config.Area.map Prod.fst) a log).2.2.2.2

/-- C7 (witness). The statement for the default configuration with btc at
102 / 100 and ltc at 50 / 50, where `Watch` makes exactly one request: sell the
future at 102, buy the spot at 100. -/
theorem Watch_open_request_shape_witness :
    (∃ ev, (Watch (marketEnv (some 102) (some 100) (some 50) (some 50)) (runningAnalyzer [] 0) []).log = [] ++ ev
      ∧ ∀ fx fc sx sc, Event.placeOrders fx fc sx sc ∈ ev →
        ∃ (key : String) (f s : ℚ) (fe se : ExchangeId),
          key ∈ (runningAnalyzer [] 0).config.Area.map Prod.fst ∧ (runningAnalyzer [] 0).future = some fe ∧ (runningAnalyzer [] 0).spot = some se
          ∧ (marketEnv (some 102) (some 100) (some 50) (some 50)).GetTickerValue fe (key ++ "/usdt" ++ "future") = some ⟨f⟩
          ∧ (marketEnv (some 102) (some 100) (some 50) (some 50)).GetTickerValue se (key ++ "/usdt" ++ "spot") = some ⟨s⟩
          ∧ fx = some fe ∧ sx = some se
          ∧ fc = { Batch := fc.Batch, Coin := key ++ "/usdt",
                   Typ := if f > s then TradeType.TradeTypeOpenShort
                          else TradeType.TradeTypeOpenLong,
                   Price := f, Amount := 5, Limit := (runningAnalyzer [] 0).config.LimitOpen }
          ∧ sc = { Batch := fc.Batch, Coin := key ++ "/usdt",
                   Typ := if f > s then TradeType.TradeTypeBuy else TradeType.TradeTypeSell,
                   Price := s, Amount := 50 / s, Limit := (runningAnalyzer [] 0).config.LimitOpen })
    ∧ (Watch (marketEnv (some 102) (some 100) (some 50) (some 50))
        (runningAnalyzer [] 0) []).log.filter Event.isPlaceOrders =
        [Event.placeOrders (some ExchangeId.okexFuture)
          { Batch := "0123456789ab", Coin := "btc/usdt", Typ := TradeType.TradeTypeOpenShort,
            Price := 102, Amount := 5, Limit := 0.005 }
          (some ExchangeId.okexSpot)
          { Batch := "0123456789ab", Coin := "btc/usdt", Typ := TradeType.TradeTypeBuy,
            Price := 100, Amount := 50 / 100, Limit := 0.005 }] :=
  ⟨Watch_open_request_shape (marketEnv (some 102) (some 100) (some 50) (some 50))
    (runningAnalyzer [] 0) [], by decide!⟩

/-! ## The status Error -/

/-- C9. From status Error: `Start` returns the status error and changes
nothing; `Watch`, `checkPosition`, `placeOrdersByQuantity` (and the code behind
its guard) and `wsConnect` leave the status at Error; `Close` sets it to None. -/
theorem error_status_is_terminal (env : Env) (a : IAnalyzer) (api secret configJSON : String)
    (coin : String) (fp sp : ℚ) (future spot : Option ExchangeId)
    (futureConfig spotConfig : TradeConfig) (log : List Event)
    (h : a.status = StatusType.StatusError) :
    Start env a api secret configJSON = (a, some TaskError.TaskErrorStatus)
    ∧ (Watch env a log).state.status = StatusType.StatusError
    ∧ (checkPosition env a coin fp sp log).1.status = StatusType.StatusError
    ∧ placeOrdersByQuantity env a future futureConfig spot spotConfig log = (a, log)
    ∧ placeOrdersBody env a future futureConfig spot spotConfig log = (a, log)
    ∧ (wsConnect env a).status = StatusType.StatusError
    ∧ (Close a log).state.status = StatusType.StatusNone := by
  refine ⟨by simp [Start, h], ?_, ?_, placeOrdersByQuantity_eq _ _ _ _ _ _ _,
    by simp [placeOrdersBody, h], ?_, ?_⟩
  · rcases (watchLoop_spec env (a.config.Area.map Prod.fst) a log).2.2.2.1 with h1 | h1
    · exact h1.trans h
    · exact h1
  · rcases (checkPosition_frame env a coin fp sp log).2.2.2.1 with h1 | h1
    · exact h1.trans h
    · exact h1
  · unfold wsConnect
    split <;> simp [h]
  · cases hf : a.future <;> cases hs : a.spot <;> simp [Close, hf, hs, Outcome.state]

/-- C9 (witness). The statement at a running analyzer put into status Error. -/
theorem error_status_is_terminal_witness :
    Start calmEnv { runningAnalyzer [(0, some btcPosition)] 1 with
        status := StatusType.StatusError } "k" "s" "" =
      ({ runningAnalyzer [(0, some btcPosition)] 1 with status := StatusType.StatusError },
        some TaskError.TaskErrorStatus)
    ∧ (Watch calmEnv { runningAnalyzer [(0, some btcPosition)] 1 with
        status := StatusType.StatusError } []).state.status = StatusType.StatusError
    ∧ (checkPosition calmEnv { runningAnalyzer [(0, some btcPosition)] 1 with
        status := StatusType.StatusError } "btc/usdt" 101 100 []).1.status
        = StatusType.StatusError
    ∧ placeOrdersByQuantity calmEnv { runningAnalyzer [(0, some btcPosition)] 1 with
        status := StatusType.StatusError } (some ExchangeId.okexFuture) btcFutureLeg
        (some ExchangeId.okexSpot) btcSpotLeg [] =
      ({ runningAnalyzer [(0, some btcPosition)] 1 with status := StatusType.StatusError }, [])
    ∧ placeOrdersBody calmEnv { runningAnalyzer [(0, some btcPosition)] 1 with
        status := StatusType.StatusError } (some ExchangeId.okexFuture) btcFutureLeg
        (some ExchangeId.okexSpot) btcSpotLeg [] =
      ({ runningAnalyzer [(0, some btcPosition)] 1 with status := StatusType.StatusError }, [])
    ∧ (wsConnect calmEnv { runningAnalyzer [(0, some btcPosition)] 1 with
        status := StatusType.StatusError }).status = StatusType.StatusError
    ∧ (Close { runningAnalyzer [(0, some btcPosition)] 1 with
        status := StatusType.StatusError } []).state.status = StatusType.StatusNone :=
  error_status_is_terminal calmEnv
    { runningAnalyzer [(0, some btcPosition)] 1 with status := StatusType.StatusError }
    "k" "s" "" "btc/usdt" 101 100 (some ExchangeId.okexFuture) (some ExchangeId.okexSpot)
    btcFutureLeg btcSpotLeg [] rfl

/-- C8 (witness). The statement for the ledger holding a btc and an ltc hedge,
visited for "btc/usdt" at 101.4 / 101. -/
theorem checkPosition_ledger_discipline_witness :
    ∃ ev, (checkPosition calmEnv hedgedAnalyzer "btc/usdt" 101.4 101 []).2.1 = [] ++ ev
      ∧ (∀ k, k ∈ (checkPosition calmEnv hedgedAnalyzer "btc/usdt" 101.4 101 []).1.ops.keys → k ∈ hedgedAnalyzer.ops.keys)
      ∧ (∀ k e, (k, e) ∈ hedgedAnalyzer.ops → noCloseDue calmEnv hedgedAnalyzer "btc/usdt" 101.4 101 e = true →
          (k, e) ∈ (checkPosition calmEnv hedgedAnalyzer "btc/usdt" 101.4 101 []).1.ops ∧ closeOrders ev k = [])
      ∧ (∀ k op, (k, some op) ∈ hedgedAnalyzer.ops → closeDue calmEnv hedgedAnalyzer "btc/usdt" 101.4 101 op = true →
          ∃ fr sr : TradeResult,
            closeOrders ev k =
              [Event.order (Site.closing k) hedgedAnalyzer.future (refreshPrices op 101.4 101).futureConfig fr,
               Event.order (Site.closing k) hedgedAnalyzer.spot (refreshPrices op 101.4 101).spotConfig sr]
            ∧ ((fr.Error = TaskError.TaskErrorSuccess ∧ sr.Error = TaskError.TaskErrorSuccess) →
                k ∉ (checkPosition calmEnv hedgedAnalyzer "btc/usdt" 101.4 101 []).1.ops.keys)
            ∧ (¬ (fr.Error = TaskError.TaskErrorSuccess ∧ sr.Error = TaskError.TaskErrorSuccess) →
                (k, some (refreshPrices op 101.4 101)) ∈ (checkPosition calmEnv hedgedAnalyzer "btc/usdt" 101.4 101 []).1.ops
                ∧ (checkPosition calmEnv hedgedAnalyzer "btc/usdt" 101.4 101 []).1.status = StatusType.StatusError))
      ∧ (∀ k, k ∈ hedgedAnalyzer.ops.keys → k ∉ (checkPosition calmEnv hedgedAnalyzer "btc/usdt" 101.4 101 []).1.ops.keys →
          ∃ (op : OperationItem) (fr sr : TradeResult),
            (k, some op) ∈ hedgedAnalyzer.ops ∧ closeDue calmEnv hedgedAnalyzer "btc/usdt" 101.4 101 op = true
            ∧ closeOrders ev k =
              [Event.order (Site.closing k) hedgedAnalyzer.future (refreshPrices op 101.4 101).futureConfig fr,
               Event.order (Site.closing k) hedgedAnalyzer.spot (refreshPrices op 101.4 101).spotConfig sr]
            ∧ fr.Error = TaskError.TaskErrorSuccess ∧ sr.Error = TaskError.TaskErrorSuccess)
      ∧ (∀ x ∈ ev, ∃ k ∈ hedgedAnalyzer.ops.keys, Event.isCloseOf k x = true)
      ∧ ((∀ x ∈ ev, Event.noFailure x = true) →
          (checkPosition calmEnv (checkPosition calmEnv hedgedAnalyzer "btc/usdt" 101.4 101 []).1 "btc/usdt" 101.4 101
              (checkPosition calmEnv hedgedAnalyzer "btc/usdt" 101.4 101 []).2.1).1
            = (checkPosition calmEnv hedgedAnalyzer "btc/usdt" 101.4 101 []).1
          ∧ (checkPosition calmEnv (checkPosition calmEnv hedgedAnalyzer "btc/usdt" 101.4 101 []).1 "btc/usdt" 101.4 101
              (checkPosition calmEnv hedgedAnalyzer "btc/usdt" 101.4 101 []).2.1).2.1
            = (checkPosition calmEnv hedgedAnalyzer "btc/usdt" 101.4 101 []).2.1) :=
  checkPosition_ledger_discipline calmEnv hedgedAnalyzer "btc/usdt" 101.4 101 [] (by decide)

/-- C10 (counterexample). The ledger holds one ltc hedge and no btc hedge;
`checkPosition` for "btc/usdt" at btc prices 101.4 / 101 returns true, submits
the two close orders of the ltc hedge at the btc prices and removes it. -/
theorem checkPosition_closes_foreign_asset :
    ltcPosition.futureConfig.Coin = "ltc/usdt"
    ∧ ltcPosition.spotConfig.Coin = "ltc/usdt"
    ∧ (checkPosition calmEnv (runningAnalyzer [(0, some ltcPosition)] 1)
        "btc/usdt" 101.4 101 []).2.2 = true
    ∧ (checkPosition calmEnv (runningAnalyzer [(0, some ltcPosition)] 1)
        "btc/usdt" 101.4 101 []).2.1 =
        [Event.order (Site.closing 0) (some ExchangeId.okexFuture)
            { ltcPosition.futureConfig with Price := 101.4 } ⟨TaskError.TaskErrorSuccess, 5⟩,
         Event.order (Site.closing 0) (some ExchangeId.okexSpot)
            { ltcPosition.spotConfig with Price := 101 } ⟨TaskError.TaskErrorSuccess, 1⟩]
    ∧ (checkPosition calmEnv (runningAnalyzer [(0, some ltcPosition)] 1)
        "btc/usdt" 101.4 101 []).1.ops = [] := by
  decide!

/-- C10 (amended). `checkPosition(c, f, s)` returns true exactly when the
ledger is non-empty, whatever assets its entries name; whether a close is due
for an entry does not depend on the `Coin` of its leg configs; on a ledger with
distinct keys every entry for which no close is due is left unchanged with no
order submitted for it, and every entry for which a close is due has exactly
two orders submitted for it. -/
theorem checkPosition_scans_every_entry (env : Env) (a : IAnalyzer) (coin : String)
    (fp sp : ℚ) (log : List Event) (hnd : a.ops.keys.Nodup) :
    ((checkPosition env a coin fp sp log).2.2 = true ↔ a.ops ≠ [])
    ∧ (∀ (op : OperationItem) (c : String),
        closeDue env a coin fp sp
          { futureConfig := { op.futureConfig with Coin := c }
            spotConfig := { op.spotConfig with Coin := c } }
          = closeDue env a coin fp sp op)
    ∧ ∃ ev, (checkPosition env a coin fp sp log).2.1 = log ++ ev
        ∧ ∀ k e, (k, e) ∈ a.ops →
          (noCloseDue env a coin fp sp e = true →
            (k, e) ∈ (checkPosition env a coin fp sp log).1.ops ∧ closeOrders ev k = [])
          ∧ (noCloseDue env a coin fp sp e = false → (closeOrders ev k).length = 2) := by
  refine ⟨checkPosition_held env a coin fp sp log, fun op c => rfl, ?_⟩
  obtain ⟨ev, hev, _⟩ := positionLoop_log env coin fp sp a.ops a log
  have hown := positionLoop_own env coin fp sp a.ops a log hnd
  have hsplit : ∀ k l, closeOrders (positionLoop env coin fp sp a.ops a log).2 k
      = closeOrders log k ++ l → closeOrders ev k = l := by
    intro k l h
    rw [hev, closeOrders_append] at h
    exact List.append_cancel_left h
  refine ⟨ev, by rw [checkPosition_log, hev], ?_⟩
  intro k e he
  rw [checkPosition_state]
  constructor
  · intro hn
    obtain ⟨h1, h2⟩ := (hown k e he).1 hn
    exact ⟨(h1 e).2 he, hsplit k [] (by rw [h2, List.append_nil])⟩
  · intro hn
    cases e with
    | none => simp [noCloseDue] at hn
    | some op =>
      have hd : closeDue env a coin fp sp op = true := by simpa [noCloseDue] using hn
      obtain ⟨fr, sr, h1, _, _⟩ := (hown k (some op) he).2 op rfl hd
      rw [hsplit k _ h1]
      rfl

/-- C10 (witness). The amended statement for the ledger holding a btc and an
ltc hedge, visited for "btc/usdt" at 101.4 / 101. -/
theorem checkPosition_scans_every_entry_witness :
    ((checkPosition calmEnv hedgedAnalyzer "btc/usdt" 101.4 101 []).2.2 = true ↔ hedgedAnalyzer.ops ≠ [])
    ∧ (∀ (op : OperationItem) (c : String),
        closeDue calmEnv hedgedAnalyzer "btc/usdt" 101.4 101
          { futureConfig := { op.futureConfig with Coin := c }
            spotConfig := { op.spotConfig with Coin := c } }
          = closeDue calmEnv hedgedAnalyzer "btc/usdt" 101.4 101 op)
    ∧ ∃ ev, (checkPosition calmEnv hedgedAnalyzer "btc/usdt" 101.4 101 []).2.1 = [] ++ ev
        ∧ ∀ k e, (k, e) ∈ hedgedAnalyzer.ops →
          (noCloseDue calmEnv hedgedAnalyzer "btc/usdt" 101.4 101 e = true →
            (k, e) ∈ (checkPosition calmEnv hedgedAnalyzer "btc/usdt" 101.4 101 []).1.ops ∧ closeOrders ev k = [])
          ∧ (noCloseDue calmEnv hedgedAnalyzer "btc/usdt" 101.4 101 e = false → (closeOrders ev k).length = 2) :=
  checkPosition_scans_every_entry calmEnv hedgedAnalyzer "btc/usdt" 101.4 101 [] (by decide)

end task
